import Mathlib

/-!
# GEM VFAT2 readout decoders: `gem-reading.cc` and `thldread.cc`

A shallow embedding of the decode logic of the two ROOT applications in
`src/tbutils`.  Machine integers are natural numbers (or integers for `int`)
with the truncation of the C++ type written out (`u8`, `u16`, `u64`, `i32`).

The input file stream is modelled at token level: the content of the file is
its sequence of whitespace-delimited tokens plus one bit telling whether any
whitespace (typically the final newline) follows the last token.  The stream
carries the two state bits the programs test, `eofbit` and `failbit`.
-/

/-! ## Machine integers -/

/-- Truncation to `uint8_t`. -/
def u8 (x : Nat) : Nat := x % 2 ^ 8

/-- Truncation to `uint16_t`. -/
def u16 (x : Nat) : Nat := x % 2 ^ 16

/-- Truncation to `uint64_t`. -/
def u64 (x : Nat) : Nat := x % 2 ^ 64

/-- Conversion of a signed integer to `uint64_t` (the usual arithmetic
conversion applied to `ivfat` in `ivfat<sumVFAT`). -/
def toU64 (i : Int) : Nat := (i % 2 ^ 64).toNat

/-- Two's-complement wrap to `int` (32 bits). -/
def i32 (i : Int) : Int := (i + 2 ^ 31) % 2 ^ 32 - 2 ^ 31

/-! ## Data model -/

/-- The chip record `VFATData`.  `gem-reading.cc` declares it without `delVT`;
there the field is never read or written. -/
structure VFATData where
  BC : Nat
  EC : Nat
  bxExp : Nat
  bxNum : Nat
  ChipID : Nat
  lsData : Nat
  msData : Nat
  delVT : ℚ
  crc : Nat
deriving DecidableEq

/-- The board record `GEBData` of `gem-reading.cc` (the `vfats` vector is
never used by the program). -/
structure GEBData where
  header : Nat
  trailer : Nat
deriving DecidableEq

/-- The scan parameters `AppHeader` of `thldread.cc`. -/
structure AppHeader where
  minTh : Int
  maxTh : Int
  stepSize : Int
deriving DecidableEq

/-! ## Bit-field extraction

The expressions of `main` (gem-reading.cc 329-341, 379-381) and of
`printVFATdataBits` (both files). -/

/-- Control nibble of a 16-bit word: `uint8_t b = (0xf000 & w) >> 12`
(`b1010`, `b1100`, `b1110`). -/
def ctrlBits (w : Nat) : Nat := u8 ((0xf000 &&& w) >>> 12)

/-- Bunch-crossing value printed by `printVFATdataBits`: `0x0fff & vfat.BC`. -/
def bcValue (w : Nat) : Nat := 0x0fff &&& w

/-- Event count: `uint16_t EC = (0x0ff0 & vfat.EC) >> 4`. -/
def ecValue (w : Nat) : Nat := u16 ((0x0ff0 &&& w) >>> 4)

/-- Flag nibble: `uint8_t Flag = (0x000f & vfat.EC)`. -/
def ecFlag (w : Nat) : Nat := u8 (0x000f &&& w)

/-- Chip id: `uint16_t ChipID = (0x0fff & vfat.ChipID)`. -/
def chipIDValue (w : Nat) : Nat := u16 (0x0fff &&& w)

/-- Mask of the zero-suppression flag in the board header. -/
def ZSFlagMask : Nat := 0xffffff0000000000

/-- Mask of the chamber id in the board header. -/
def ChamIDMask : Nat := 0x000000fff0000000

/-- Mask of the sub-frame count in the board header. -/
def sumVFATMask : Nat := 0x000000000fffffff

/-- Zero-suppression flag: `(0xffffff0000000000 & geb.header) >> 40`. -/
def ZSFlag (header : Nat) : Nat := u64 ((ZSFlagMask &&& header) >>> 40)

/-- Chamber id: `(0x000000fff0000000 & geb.header) >> 28`. -/
def ChamID (header : Nat) : Nat := u64 ((ChamIDMask &&& header) >>> 28)

/-- Sub-frame count: `(0x000000000fffffff & geb.header)`. -/
def sumVFAT (header : Nat) : Nat := u64 (sumVFATMask &&& header)

/-- Trailer field `OHcrc = (0xffff000000000000 & geb.trailer) >> 48`. -/
def OHcrc (trailer : Nat) : Nat := u64 ((0xffff000000000000 &&& trailer) >>> 48)

/-- Trailer field `OHwCount = (0x0000ffff00000000 & geb.trailer) >> 32`. -/
def OHwCount (trailer : Nat) : Nat := u64 ((0x0000ffff00000000 &&& trailer) >>> 32)

/-- Trailer field `ChamStatus = (0x00000000ffff0000 & geb.trailer) >> 16`. -/
def ChamStatus (trailer : Nat) : Nat := u64 ((0x00000000ffff0000 &&& trailer) >>> 16)

/-! ## Channel loops -/

namespace GEMOnline

/-- Hit value of channel `chan` in the channel loop of `gem-reading.cc`
(lines 356-367): `chan0xf = ((vfat.lsData >> chan) & 0x1)` below 64 and
`chan0xf = ((vfat.lsData >> (chan-64)) & 0x1)` from 64 on. -/
def chan0xf (vfat : VFATData) (chan : Nat) : Nat :=
  if chan < 64 then u8 ((vfat.lsData >>> chan) &&& 0x1)
  else u8 ((vfat.lsData >>> (chan - 64)) &&& 0x1)

end GEMOnline

namespace GEMData

/-- Weight filled for channel `chan` in the channel loop of `thldread.cc`
(lines 319-324): `((vfat.lsData>>chan))&0x1` below 64 and
`((vfat.msData>>(chan-64)))&0x1` from 64 on. -/
def chanWeight (vfat : VFATData) (chan : Nat) : Nat :=
  if chan < 64 then (vfat.lsData >>> chan) &&& 0x1
  else (vfat.msData >>> (chan - 64)) &&& 0x1

end GEMData

/-- Bit `i` of the word `x`, as a number 0 or 1. -/
def bitOf (x i : Nat) : Nat := x / 2 ^ i % 2

/-! ## The input stream -/

/-- One whitespace-delimited token of the input file, given by the number it
denotes under each of the three extractions the programs use: `>> hex >>` into
an unsigned integer, `>>` into an `int` (decimal, before any `hex`
manipulator is applied), and `>>` into a `double`.  `none` means that the
token does not start with a number of that form. -/
structure Token where
  hexVal : Option Nat
  decVal : Option Int
  fltVal : Option ℚ
deriving DecidableEq

/-- The state of the `ifstream`: the tokens not yet consumed, whether
whitespace follows the last token of the file, and the state bits. -/
structure IStream where
  toks : List Token
  trailing : Bool
  eofbit : Bool
  failbit : Bool
deriving DecidableEq

namespace IStream

/-- Nothing more can be extracted: no token is left, or the stream is not
good. -/
def exhausted (s : IStream) : Bool := s.toks.isEmpty || !(!s.eofbit && !s.failbit)

/-- The stream after an extraction attempted when nothing more can be
extracted: `failbit` is set, and so is `eofbit` if the attempt ran into the
end of the file. -/
def drained (s : IStream) : IStream :=
  { s with eofbit := s.eofbit || (!s.eofbit && !s.failbit), failbit := true }

/-- Member `eof()`. -/
def eof (s : IStream) : Bool := s.eofbit

/-- Member `good()`. -/
def good (s : IStream) : Bool := !s.eofbit && !s.failbit

/-- Formatted extraction `inpf >> x` of one number.  `parse` gives the value
stored and whether it had to be clamped to the range of the target type.
* Stream not good: the sentry sets `failbit`, `x` keeps its value.
* No token left: skipping whitespace reaches the end of the file, the sentry
  sets `eofbit` and `failbit`, `x` keeps its value.
* Token not a number: `failbit` is set and zero is stored.
* Otherwise the token is consumed and its value stored; reading the last
  token of a file with no trailing whitespace runs into the end of the file
  and sets `eofbit`; a value out of range is clamped and sets `failbit`. -/
def extract {α : Type} (parse : Token → Option (α × Bool)) (zero : α)
    (s : IStream) (old : α) : IStream × α :=
  if !s.good then ({ s with failbit := true }, old)
  else
    match s.toks with
    | [] => ({ s with eofbit := true, failbit := true }, old)
    | t :: rest =>
      match parse t with
      | none => ({ s with failbit := true }, zero)
      | some (v, clamped) =>
        ({ s with toks := rest, eofbit := rest.isEmpty && !s.trailing,
                  failbit := clamped }, v)

end IStream

/-- Value stored by `>> hex >>` into an unsigned integer of `w` bits. -/
def parseHex (w : Nat) (t : Token) : Option (Nat × Bool) :=
  match t.hexVal with
  | none => none
  | some n => if n < 2 ^ w then some (n, false) else some (2 ^ w - 1, true)

/-- Value stored by `>>` into an `int`. -/
def parseInt (t : Token) : Option (Int × Bool) :=
  match t.decVal with
  | none => none
  | some v =>
    if v < -2 ^ 31 then some (-2 ^ 31, true)
    else if 2 ^ 31 - 1 < v then some (2 ^ 31 - 1, true)
    else some (v, false)

/-- Value stored by `>>` into a `double`. -/
def parseDouble (t : Token) : Option (ℚ × Bool) :=
  match t.fltVal with
  | none => none
  | some x => some (x, false)

/-- The extraction `inpf >> hex >> x` for an unsigned `x` of `w` bits. -/
def readHex (w : Nat) (inpf : IStream) (old : Nat) : IStream × Nat :=
  IStream.extract (parseHex w) 0 inpf old

/-- The extraction `inpf >> x` for an `int`. -/
def readInt (inpf : IStream) (old : Int) : IStream × Int :=
  IStream.extract parseInt 0 inpf old

/-- The extraction `inpf >> x` for a `double`. -/
def readDouble (inpf : IStream) (old : ℚ) : IStream × ℚ :=
  IStream.extract parseDouble 0 inpf old

/-- A token that is a hexadecimal numeral of value `n`. -/
def hexTok (n : Nat) : Token := { hexVal := some n, decVal := none, fltVal := none }

/-- The token `t` is a well-formed field of `w` bits with value `v`: it is a
hexadecimal numeral of value `v`, and `v` fits in `w` bits. -/
def IsHexTok (w : Nat) (t : Token) (v : Nat) : Prop := t.hexVal = some v ∧ v < 2 ^ w

/-- The token `t` is a well-formed floating-point field with value `x`. -/
def IsDoubleTok (t : Token) (x : ℚ) : Prop := t.fltVal = some x

/-- A token that is a decimal fraction of value `x` (its integer readings are
not used). -/
def doubleTok (x : ℚ) : Token := { hexVal := none, decVal := none, fltVal := some x }

/-- The token `t` is a well-formed `int` field with value `v`: it is a decimal
numeral of value `v`, and `v` fits in 32 bits. -/
def IsIntTok (t : Token) (v : Int) : Prop := t.decVal = some v ∧ -2 ^ 31 ≤ v ∧ v < 2 ^ 31

/-- A token that is a decimal numeral of value `i`. -/
def decTok (i : Int) : Token := { hexVal := none, decVal := some i, fltVal := none }

/-! ## `gem-reading.cc` -/

namespace GEMOnline

/-- Member `readGEBheader`: `inpf >> hex >> geb.header; return(true);`. -/
def readGEBheader (inpf : IStream) (geb : GEBData) : Bool × IStream × GEBData :=
  let r := readHex 64 inpf geb.header
  (true, r.1, { geb with header := r.2 })

/-- Member `readGEBtrailer`: `inpf >> hex >> geb.trailer; return(true);`. -/
def readGEBtrailer (inpf : IStream) (geb : GEBData) : Bool × IStream × GEBData :=
  let r := readHex 64 inpf geb.trailer
  (true, r.1, { geb with trailer := r.2 })

/-- Member `readEvent` of `gem-reading.cc` (lines 216-228). -/
def readEvent (inpf : IStream) (event : Int) (vfat : VFATData) :
    Bool × IStream × VFATData :=
  if event < 0 then (false, inpf, vfat)
  else
    let r1 := readHex 16 inpf vfat.BC
    let r2 := readHex 16 r1.1 vfat.EC
    let r3 := readHex 16 r2.1 vfat.ChipID
    let r4 := readHex 64 r3.1 vfat.lsData
    let r5 := readHex 64 r4.1 vfat.msData
    let r6 := readHex 16 r5.1 vfat.crc
    (true, r6.1, { vfat with BC := r1.2, EC := r2.2, ChipID := r3.2,
                             lsData := r4.2, msData := r5.2, crc := r6.2 })

/-- What one pass of the chip sub-frame loop hands to the histograms
(lines 336-367): `hiVFAT->Fill(ivfat)`, `hi1010->Fill(b1010)`,
`hi1100->Fill(b1100)`, `hiFlag->Fill(Flag)`, `hi1110->Fill(b1110)`,
`hiChip->Fill(ChipID)` unless `ChipID` is `0xded`, `hiCRC->Fill(CRC)`,
`histos[chan]->Fill(chan0xf)` for the 128 channels, and `hiCh128->Fill(chan)`
for the channels with `chan0xf` zero. -/
structure Fill where
  ivfat : Int
  b1010 : Nat
  b1100 : Nat
  Flag : Nat
  b1110 : Nat
  ChipID : Option Nat
  CRC : Nat
  chans : List Nat
  ch128 : List Nat
deriving DecidableEq

/-- The values computed from `vfat` in one pass of the chip sub-frame loop. -/
def mkFill (ivfat : Int) (vfat : VFATData) : Fill :=
  { ivfat := ivfat
    b1010 := ctrlBits vfat.BC
    b1100 := ctrlBits vfat.EC
    Flag := ecFlag vfat.EC
    b1110 := ctrlBits vfat.ChipID
    ChipID := if chipIDValue vfat.ChipID ≠ 0xded then some (chipIDValue vfat.ChipID) else none
    CRC := u16 vfat.crc
    chans := (List.range 128).map (chan0xf vfat)
    ch128 := (List.range 128).filter (fun chan => chan0xf vfat chan = 0) }

/-- The variables of `main` that the event loop changes, with the sequence of
histogram fills made so far (one entry per pass of the chip sub-frame loop,
that is per call of `readEvent`). -/
structure MainState where
  inpf : IStream
  geb : GEBData
  vfat : VFATData
  fills : List Fill
deriving DecidableEq

/-- Body of `for(int ivfat=0; ivfat<sumVFAT; ivfat++)` (lines 334-373). -/
def vfatBody (ievent ivfat : Int) (st : MainState) : MainState :=
  let r := readEvent st.inpf ievent st.vfat
  { st with inpf := r.2.1, vfat := r.2.2, fills := st.fills ++ [mkFill ivfat r.2.2] }

/-- The loop `for(int ivfat=0; ivfat<sumVFAT; ivfat++)` from a given `ivfat`
on.  `ivfat` is an `int` and `sumVFAT` a `uint64_t`, so the comparison
converts `ivfat` to `uint64_t`; the increment wraps at 32 bits.  The first
argument bounds the number of condition checks; `none` means it ran out. -/
def vfatLoop (ievent : Int) (sumVFAT : Nat) : Nat → Int → MainState → Option MainState
  | 0, _, _ => none
  | fuel + 1, ivfat, st =>
    if toU64 ivfat < sumVFAT then
      vfatLoop ievent sumVFAT fuel (i32 (ivfat + 1)) (vfatBody ievent ivfat st)
    else some st

/-- The statement `Online.readGEBheader(inpf, geb);` of `main`. -/
def headerStep (st : MainState) : MainState :=
  let h := readGEBheader st.inpf st.geb
  { st with inpf := h.2.1, geb := h.2.2 }

/-- The statement `Online.readGEBtrailer(inpf, geb);` of `main`. -/
def trailerStep (st : MainState) : MainState :=
  let t := readGEBtrailer st.inpf st.geb
  { st with inpf := t.2.1, geb := t.2.2 }

/-- Constant `ieventMax`. -/
def ieventMax : Int := 9000000

/-- Body of the event loop (lines 326-381, printing left out): board header,
chip sub-frame loop, board trailer. -/
def eventBody (ievent : Int) (st : MainState) : Option MainState :=
  let st1 := headerStep st
  match vfatLoop ievent (sumVFAT st1.geb.header) (2 ^ 32) 0 st1 with
  | none => none
  | some st2 => some (trailerStep st2)

/-- How the event loop was left. -/
inductive LoopExit where
  | maxEvents
  | eof
  | notGood
deriving DecidableEq

/-- State of `main` when the event loop is left: the way out, the value of
`ievent` (the number of event cycles run) and the variables. -/
structure MainResult where
  exit : LoopExit
  ievent : Int
  st : MainState
deriving DecidableEq

/-- The loop `for(int ievent=0; ievent<ieventMax; ievent++)` (lines 319-402)
from a given `ievent` on, with `if(inpf.eof()) break;` and
`if(!inpf.good()) break;` at the head of the body. -/
def eventLoop : Nat → Int → MainState → Option MainResult
  | 0, _, _ => none
  | fuel + 1, ievent, st =>
    if ¬ ievent < ieventMax then some ⟨LoopExit.maxEvents, ievent, st⟩
    else if st.inpf.eof then some ⟨LoopExit.eof, ievent, st⟩
    else if !st.inpf.good then some ⟨LoopExit.notGood, ievent, st⟩
    else
      match eventBody ievent st with
      | none => none
      | some st1 => eventLoop fuel (i32 (ievent + 1)) st1

/-- The event loop of `main` on an opened file.  `vfat` and `geb` are
declared without initialiser, so their first values are arbitrary. -/
def main (inpf : IStream) (geb : GEBData) (vfat : VFATData) : Option MainResult :=
  eventLoop (ieventMax.toNat + 1) 0 { inpf := inpf, geb := geb, vfat := vfat, fills := [] }

/-- The six tokens of one chip sub-frame holding the fields of `f`. -/
def frameToks (f : VFATData) : List Token :=
  [hexTok f.BC, hexTok f.EC, hexTok f.ChipID, hexTok f.lsData, hexTok f.msData, hexTok f.crc]

/-- The tokens of one board frame: header, the chip sub-frames, trailer. -/
def boardToks (header : Nat) (frames : List VFATData) (trailer : Nat) : List Token :=
  hexTok header :: ((frames.map frameToks).flatten ++ [hexTok trailer])

/-- The first `n` passes of the chip sub-frame loop, `ivfat` counting up from
`i` (the loop without its exit test). -/
def vfatIter (ievent : Int) : Nat → Nat → MainState → MainState
  | 0, _, st => st
  | n + 1, i, st => vfatIter ievent n (i + 1) (vfatBody ievent (i : Int) st)

/-- The fields of `f` have the widths of their types. -/
def FrameOK (f : VFATData) : Prop :=
  f.BC < 2 ^ 16 ∧ f.EC < 2 ^ 16 ∧ f.ChipID < 2 ^ 16 ∧ f.lsData < 2 ^ 64 ∧
    f.msData < 2 ^ 64 ∧ f.crc < 2 ^ 16

/-- The record `old` after `readEvent` has stored the six fields of `f`. -/
def loadFrame (f old : VFATData) : VFATData :=
  { old with BC := f.BC, EC := f.EC, ChipID := f.ChipID, lsData := f.lsData,
             msData := f.msData, crc := f.crc }

/-- The fills of consecutive passes over the records `fs`, `ivfat` counting up
from `i`. -/
def fillsFrom : Nat → List VFATData → List Fill
  | _, [] => []
  | i, f :: fs => mkFill (i : Int) f :: fillsFrom (i + 1) fs

end GEMOnline

/-! ## `thldread.cc` -/

namespace GEMData

/-- Member `readEvent` of `thldread.cc` (lines 182-194). -/
def readEvent (inpf : IStream) (event : Int) (vfat : VFATData) :
    Bool × IStream × VFATData :=
  if event < 0 then (false, inpf, vfat)
  else
    let r1 := readHex 16 inpf vfat.BC
    let r2 := readHex 16 r1.1 vfat.EC
    let r3 := readHex 32 r2.1 vfat.bxExp
    let r4 := readHex 16 r3.1 vfat.bxNum
    let r5 := readHex 16 r4.1 vfat.ChipID
    let r6 := readHex 64 r5.1 vfat.lsData
    let r7 := readHex 64 r6.1 vfat.msData
    let r8 := readDouble r7.1 vfat.delVT
    let r9 := readHex 16 r8.1 vfat.crc
    (true, r9.1, { BC := r1.2, EC := r2.2, bxExp := r3.2, bxNum := r4.2, ChipID := r5.2,
                   lsData := r6.2, msData := r7.2, delVT := r8.2, crc := r9.2 })

/-- Member `readHeader` (lines 201-206). -/
def readHeader (inpf : IStream) (ah : AppHeader) : Bool × IStream × AppHeader :=
  let r1 := readInt inpf ah.minTh
  let r2 := readInt r1.1 ah.maxTh
  let r3 := readInt r2.1 ah.stepSize
  (true, r3.1, { minTh := r1.2, maxTh := r2.2, stepSize := r3.2 })

/-- The bin count of `main` (line 265):
`Int_t nBins = ((ah.maxTh - ah.minTh) + 1)/ah.stepSize;`, a division of `int`
truncating toward zero.  `none` where the division has no defined result
(divisor zero, or quotient not representable). -/
def nBins (ah : AppHeader) : Option Int :=
  let num := i32 (i32 (ah.maxTh - ah.minTh) + 1)
  if ah.stepSize = 0 then none
  else if num = -2 ^ 31 ∧ ah.stepSize = -1 then none
  else some (Int.tdiv num ah.stepSize)

/-- Scan-header decoding as `main` does it (lines 263-265): `readHeader`, whose
result is not looked at, then the bin count. -/
def scanHeader (inpf : IStream) (ah : AppHeader) : IStream × AppHeader × Option Int :=
  let r := readHeader inpf ah
  (r.2.1, r.2.2, nBins r.2.2)

end GEMData

/-! ## Conditions named by the specification -/

/-- The specification's control-bit condition, in its words: the three control
nibbles are compared with `1010`, `1100` and `1110`; a frame is in mismatch
when one of them differs. -/
def specControlBitMismatch (vfat : VFATData) : Bool :=
  ctrlBits vfat.BC != 0xA || ctrlBits vfat.EC != 0xC || ctrlBits vfat.ChipID != 0xE

/-- The specification's condition for a malformed scan header, in its words:
`stepSize ≤ 0`, or `maxTh - minTh + 1` not evenly divisible by `stepSize`. -/
def specMalformedHeader (ah : AppHeader) : Prop :=
  ah.stepSize ≤ 0 ∨ ¬ ah.stepSize ∣ ah.maxTh - ah.minTh + 1

/-! ## Arithmetic of masks and shifts -/

theorem and_shiftRight_distrib (a b k : Nat) :
    (a &&& b) >>> k = (a >>> k) &&& (b >>> k) := by
  apply Nat.eq_of_testBit_eq
  intro i
  simp [Nat.testBit_shiftRight, Nat.testBit_and]

theorem mask_shift_eq (m w k n : Nat) (hm : m >>> k = 2 ^ n - 1) :
    (m &&& w) >>> k = w / 2 ^ k % 2 ^ n := by
  rw [and_shiftRight_distrib, hm, Nat.and_comm,
    Nat.and_pow_two_sub_one_eq_mod, Nat.shiftRight_eq_div_pow]

theorem ctrlBits_eq (w : Nat) : ctrlBits w = w / 4096 % 16 := by
  have h := mask_shift_eq 0xf000 w 12 4 (by decide)
  simp only [ctrlBits, u8]
  rw [h]
  omega

theorem bcValue_eq (w : Nat) : bcValue w = w % 4096 := by
  have h := mask_shift_eq 0x0fff w 0 12 (by decide)
  simpa [bcValue] using h

theorem ecValue_eq (w : Nat) : ecValue w = w / 16 % 256 := by
  have h := mask_shift_eq 0x0ff0 w 4 8 (by decide)
  simp only [ecValue, u16]
  rw [h]
  omega

theorem ecFlag_eq (w : Nat) : ecFlag w = w % 16 := by
  have h := mask_shift_eq 0x000f w 0 4 (by decide)
  simp only [ecFlag, u8]
  have h2 : 0x000f &&& w = w % 16 := by simpa using h
  rw [h2]
  omega

theorem chipIDValue_eq (w : Nat) : chipIDValue w = w % 4096 := by
  have h := mask_shift_eq 0x0fff w 0 12 (by decide)
  simp only [chipIDValue, u16]
  have h2 : 0x0fff &&& w = w % 4096 := by simpa using h
  rw [h2]
  omega

theorem shiftLeft_or_eq_add (a b k : Nat) (hb : b < 2 ^ k) :
    (a <<< k) ||| b = a * 2 ^ k + b := by
  rw [Nat.shiftLeft_eq, Nat.mul_comm, Nat.mul_add_lt_is_or hb]

theorem ZSFlag_eq (h : Nat) : ZSFlag h = h / 2 ^ 40 % 2 ^ 24 := by
  have e := mask_shift_eq ZSFlagMask h 40 24 (by decide)
  simp only [ZSFlag, u64]
  rw [e]
  omega

theorem ChamID_eq (h : Nat) : ChamID h = h / 2 ^ 28 % 2 ^ 12 := by
  have e := mask_shift_eq ChamIDMask h 28 12 (by decide)
  simp only [ChamID, u64]
  rw [e]
  omega

theorem sumVFAT_eq (h : Nat) : sumVFAT h = h % 2 ^ 28 := by
  have e := mask_shift_eq sumVFATMask h 0 28 (by decide)
  simp only [sumVFAT, u64]
  have e2 : sumVFATMask &&& h = h % 2 ^ 28 := by simpa using e
  rw [e2]
  omega

theorem sumVFAT_lt (h : Nat) : sumVFAT h < 2 ^ 28 := by
  rw [sumVFAT_eq]
  exact Nat.mod_lt _ (by decide)

theorem shiftRight_and_one (x i : Nat) : (x >>> i) &&& 0x1 = bitOf x i := by
  rw [Nat.and_one_is_mod, Nat.shiftRight_eq_div_pow, bitOf]

theorem bitOf_lt (x i : Nat) : bitOf x i < 2 := Nat.mod_lt _ (by decide)

theorem sum_bitOf (x : Nat) (n : Nat) :
    (∑ i in Finset.range n, bitOf x i * 2 ^ i) = x % 2 ^ n := by
  induction n with
  | zero => simp [Nat.mod_one]
  | succ n ih =>
    rw [Finset.sum_range_succ, ih, bitOf, pow_succ, Nat.mod_mul, Nat.mul_comm]


/-! ## Channel bits -/

theorem GEMOnline.chan0xf_eq (vfat : VFATData) (chan : Nat) :
    GEMOnline.chan0xf vfat chan =
      bitOf vfat.lsData (if chan < 64 then chan else chan - 64) := by
  unfold GEMOnline.chan0xf
  split <;> (rw [shiftRight_and_one]; have := bitOf_lt vfat.lsData; simp only [u8]) <;>
    (rw [Nat.mod_eq_of_lt]; exact lt_trans (this _) (by decide))

/-- C1 (code defect): in the channel loop of `gem-reading.cc` the branch for
channels 64 to 127 shifts the low word `lsData`, not the high word `msData`.
With `lsData = 0` and `msData = 1` the hit value of channel 64 is 0, although
bit 0 of the high word is 1; the same input makes the channel loop of
`thldread.cc` yield 1. -/
theorem C1_chan0xf_reads_low_word_at_64 :
    GEMOnline.chan0xf ⟨0, 0, 0, 0, 0, 0, 1, 0, 0⟩ 64 = 0 ∧
    bitOf (VFATData.msData ⟨0, 0, 0, 0, 0, 0, 1, 0, 0⟩) (64 - 64) = 1 ∧
    GEMData.chanWeight ⟨0, 0, 0, 0, 0, 0, 1, 0, 0⟩ 64 = 1 := by
  decide

theorem GEMData.chanWeight_eq (vfat : VFATData) (c : Nat) :
    GEMData.chanWeight vfat c =
      if c < 64 then bitOf vfat.lsData c else bitOf vfat.msData (c - 64) := by
  unfold GEMData.chanWeight
  split <;> rw [shiftRight_and_one]

/-- C2: in the channel loop of `thldread.cc`, for 64-bit words `lsData` and
`msData` and a channel `c` below 128, the weight filled is bit `c` of `lsData`
when `c < 64` and bit `c - 64` of `msData` otherwise; the weights of channels
0..63 are the binary digits of `lsData` and those of channels 64..127 the
binary digits of `msData`, so the 128 weights are the 128 bits, each once. -/
theorem C2_chanWeight_bits (vfat : VFATData) (c : Nat) (hc : c < 128)
    (hls : vfat.lsData < 2 ^ 64) (hms : vfat.msData < 2 ^ 64) :
    GEMData.chanWeight vfat c =
        (if c < 64 then bitOf vfat.lsData c else bitOf vfat.msData (c - 64)) ∧
    (c < 64 ∨ c - 64 < 64) ∧
    (∑ i in Finset.range 64, GEMData.chanWeight vfat i * 2 ^ i) = vfat.lsData ∧
    (∑ i in Finset.range 64, GEMData.chanWeight vfat (64 + i) * 2 ^ i) = vfat.msData := by
  refine ⟨GEMData.chanWeight_eq vfat c, by omega, ?_, ?_⟩
  · rw [← Nat.mod_eq_of_lt hls, ← sum_bitOf]
    apply Finset.sum_congr rfl
    intro i hi
    rw [GEMData.chanWeight_eq, if_pos (Finset.mem_range.mp hi)]
  · rw [← Nat.mod_eq_of_lt hms, ← sum_bitOf]
    apply Finset.sum_congr rfl
    intro i _
    rw [GEMData.chanWeight_eq, if_neg (by omega), Nat.add_sub_cancel_left]

theorem C2_chanWeight_bits_witness :
    GEMData.chanWeight ⟨0, 0, 0, 0, 0, 0x8000000000000000, 1, 0, 0⟩ 64 =
        (if 64 < 64 then bitOf 0x8000000000000000 64 else bitOf 1 (64 - 64)) ∧
    ((64 : Nat) < 64 ∨ 64 - 64 < 64) ∧
    (∑ i in Finset.range 64,
        GEMData.chanWeight ⟨0, 0, 0, 0, 0, 0x8000000000000000, 1, 0, 0⟩ i * 2 ^ i)
      = 0x8000000000000000 ∧
    (∑ i in Finset.range 64,
        GEMData.chanWeight ⟨0, 0, 0, 0, 0, 0x8000000000000000, 1, 0, 0⟩ (64 + i) * 2 ^ i)
      = 1 :=
  C2_chanWeight_bits ⟨0, 0, 0, 0, 0, 0x8000000000000000, 1, 0, 0⟩ 64 (by decide)
    (by decide) (by decide)

/-! ## Bit fields of the chip words and of the board header -/

/-- C3: extraction of the fields of BC, EC and ChipID is lossless.  For a
nibble `n < 16` and a payload `v < 4096` the word `(n << 12) | v` gives back
`n` as control nibble and `v` as BC value and as ChipID value; for `e < 256`
and `f < 16` the word `(n << 12) | (e << 4) | f` gives back `n`, the event
count `e` and the flag `f`; and for every 16-bit word `w` the fields put
together again are `w`. -/
theorem C3_fields_lossless (n v e f w : Nat) (hn : n < 16) (hv : v < 4096)
    (he : e < 256) (hf : f < 16) (hw : w < 65536) :
    (ctrlBits ((n <<< 12) ||| v) = n ∧ bcValue ((n <<< 12) ||| v) = v ∧
      chipIDValue ((n <<< 12) ||| v) = v) ∧
    (ctrlBits ((n <<< 12) ||| (e <<< 4) ||| f) = n ∧
      ecValue ((n <<< 12) ||| (e <<< 4) ||| f) = e ∧
      ecFlag ((n <<< 12) ||| (e <<< 4) ||| f) = f) ∧
    ((ctrlBits w <<< 12) ||| bcValue w = w ∧
      (ctrlBits w <<< 12) ||| chipIDValue w = w ∧
      (ctrlBits w <<< 12) ||| (ecValue w <<< 4) ||| ecFlag w = w) := by
  have h1 : (n <<< 12) ||| v = n * 4096 + v := shiftLeft_or_eq_add n v 12 hv
  have h2 : (n <<< 12) ||| (e <<< 4) ||| f = n * 4096 + e * 16 + f := by
    have a : (n <<< 12) ||| (e <<< 4) = n * 4096 + e * 16 := by
      rw [shiftLeft_or_eq_add n (e <<< 4) 12 (by rw [Nat.shiftLeft_eq]; omega),
        Nat.shiftLeft_eq]
      norm_num
    have b : n * 4096 + e * 16 = (n * 256 + e) <<< 4 := by
      rw [Nat.shiftLeft_eq]; omega
    rw [a, b, shiftLeft_or_eq_add _ f 4 hf]
    omega
  have h3 : (ctrlBits w <<< 12) ||| bcValue w = w := by
    rw [shiftLeft_or_eq_add _ _ 12 (by rw [bcValue_eq]; omega), ctrlBits_eq, bcValue_eq]
    omega
  have h4 : (ctrlBits w <<< 12) ||| chipIDValue w = w := by
    rw [shiftLeft_or_eq_add _ _ 12 (by rw [chipIDValue_eq]; omega), ctrlBits_eq,
      chipIDValue_eq]
    omega
  have h5 : (ctrlBits w <<< 12) ||| (ecValue w <<< 4) ||| ecFlag w = w := by
    have a : (ctrlBits w <<< 12) ||| (ecValue w <<< 4)
        = (ctrlBits w * 256 + ecValue w) <<< 4 := by
      rw [shiftLeft_or_eq_add _ _ 12 (by rw [Nat.shiftLeft_eq, ecValue_eq]; omega),
        Nat.shiftLeft_eq, Nat.shiftLeft_eq]
      omega
    rw [a, shiftLeft_or_eq_add _ _ 4 (by rw [ecFlag_eq]; omega), ctrlBits_eq, ecValue_eq,
      ecFlag_eq]
    omega
  refine ⟨⟨?_, ?_, ?_⟩, ⟨?_, ?_, ?_⟩, h3, h4, h5⟩
  · rw [h1, ctrlBits_eq]; omega
  · rw [h1, bcValue_eq]; omega
  · rw [h1, chipIDValue_eq]; omega
  · rw [h2, ctrlBits_eq]; omega
  · rw [h2, ecValue_eq]; omega
  · rw [h2, ecFlag_eq]; omega

theorem C3_fields_lossless_witness :
    (ctrlBits ((0xA <<< 12) ||| 0x123) = 0xA ∧ bcValue ((0xA <<< 12) ||| 0x123) = 0x123 ∧
      chipIDValue ((0xA <<< 12) ||| 0x123) = 0x123) ∧
    (ctrlBits ((0xA <<< 12) ||| (0x45 <<< 4) ||| 6) = 0xA ∧
      ecValue ((0xA <<< 12) ||| (0x45 <<< 4) ||| 6) = 0x45 ∧
      ecFlag ((0xA <<< 12) ||| (0x45 <<< 4) ||| 6) = 6) ∧
    ((ctrlBits 0xE789 <<< 12) ||| bcValue 0xE789 = 0xE789 ∧
      (ctrlBits 0xE789 <<< 12) ||| chipIDValue 0xE789 = 0xE789 ∧
      (ctrlBits 0xE789 <<< 12) ||| (ecValue 0xE789 <<< 4) ||| ecFlag 0xE789 = 0xE789) :=
  C3_fields_lossless 0xA 0x123 0x45 6 0xE789 (by decide) (by decide) (by decide)
    (by decide) (by decide)

/-- C4: for a 64-bit board header `h` the zero-suppression flag is bits 63-40
(below `2^24`), the chamber id bits 39-28 (below `2^12`) and the sub-frame
count bits 27-0 (below `2^28`); the three masks are pairwise disjoint and
together cover the 64 bits, and
`h = ZSFlag * 2^40 + ChamID * 2^28 + sumVFAT`. -/
theorem C4_header_fields (h : Nat) (hh : h < 2 ^ 64) :
    ZSFlag h = h / 2 ^ 40 % 2 ^ 24 ∧ ChamID h = h / 2 ^ 28 % 2 ^ 12 ∧
    sumVFAT h = h % 2 ^ 28 ∧
    ZSFlag h < 2 ^ 24 ∧ ChamID h < 2 ^ 12 ∧ sumVFAT h < 2 ^ 28 ∧
    ZSFlagMask &&& ChamIDMask = 0 ∧ ZSFlagMask &&& sumVFATMask = 0 ∧
    ChamIDMask &&& sumVFATMask = 0 ∧
    ZSFlagMask ||| ChamIDMask ||| sumVFATMask = 2 ^ 64 - 1 ∧
    h = ZSFlag h * 2 ^ 40 + ChamID h * 2 ^ 28 + sumVFAT h := by
  refine ⟨ZSFlag_eq h, ChamID_eq h, sumVFAT_eq h, ?_, ?_, sumVFAT_lt h,
    by decide, by decide, by decide, by decide, ?_⟩
  · rw [ZSFlag_eq]; exact Nat.mod_lt _ (by decide)
  · rw [ChamID_eq]; exact Nat.mod_lt _ (by decide)
  · rw [ZSFlag_eq, ChamID_eq, sumVFAT_eq]
    omega

theorem C4_header_fields_witness :
    ZSFlag 0xABCDEF1230000002 = 0xABCDEF1230000002 / 2 ^ 40 % 2 ^ 24 ∧
    ChamID 0xABCDEF1230000002 = 0xABCDEF1230000002 / 2 ^ 28 % 2 ^ 12 ∧
    sumVFAT 0xABCDEF1230000002 = 0xABCDEF1230000002 % 2 ^ 28 ∧
    ZSFlag 0xABCDEF1230000002 < 2 ^ 24 ∧ ChamID 0xABCDEF1230000002 < 2 ^ 12 ∧
    sumVFAT 0xABCDEF1230000002 < 2 ^ 28 ∧
    ZSFlagMask &&& ChamIDMask = 0 ∧ ZSFlagMask &&& sumVFATMask = 0 ∧
    ChamIDMask &&& sumVFATMask = 0 ∧
    ZSFlagMask ||| ChamIDMask ||| sumVFATMask = 2 ^ 64 - 1 ∧
    0xABCDEF1230000002 = ZSFlag 0xABCDEF1230000002 * 2 ^ 40 +
      ChamID 0xABCDEF1230000002 * 2 ^ 28 + sumVFAT 0xABCDEF1230000002 :=
  C4_header_fields 0xABCDEF1230000002 (by decide)

/-! ## Token extraction -/

theorem readHex_cons (w : Nat) (t : Token) (rest : List Token) (tr : Bool) (old v : Nat)
    (ht : IsHexTok w t v) :
    readHex w ⟨t :: rest, tr, false, false⟩ old
      = (⟨rest, tr, rest.isEmpty && !tr, false⟩, v) := by
  obtain ⟨h1, h2⟩ := ht
  simp [readHex, IStream.extract, IStream.good, parseHex, h1, h2]

theorem readDouble_cons (t : Token) (rest : List Token) (tr : Bool) (old x : ℚ)
    (ht : IsDoubleTok t x) :
    readDouble ⟨t :: rest, tr, false, false⟩ old
      = (⟨rest, tr, rest.isEmpty && !tr, false⟩, x) := by
  unfold IsDoubleTok at ht
  simp [readDouble, IStream.extract, IStream.good, parseDouble, ht]

theorem readHex_cons_cons (w : Nat) (t u : Token) (rest : List Token) (tr : Bool)
    (old v : Nat) (ht : IsHexTok w t v) :
    readHex w ⟨t :: u :: rest, tr, false, false⟩ old
      = (⟨u :: rest, tr, false, false⟩, v) := by
  rw [readHex_cons w t (u :: rest) tr old v ht]
  simp

theorem readDouble_cons_cons (t u : Token) (rest : List Token) (tr : Bool)
    (old x : ℚ) (ht : IsDoubleTok t x) :
    readDouble ⟨t :: u :: rest, tr, false, false⟩ old
      = (⟨u :: rest, tr, false, false⟩, x) := by
  rw [readDouble_cons t (u :: rest) tr old x ht]
  simp

theorem GEMOnline.readEvent_frame (t1 t2 t3 t4 t5 t6 : Token) (rest : List Token)
    (tr : Bool) (v1 v2 v3 v4 v5 v6 : Nat) (event : Int) (vfat : VFATData)
    (hev : 0 ≤ event)
    (h1 : IsHexTok 16 t1 v1) (h2 : IsHexTok 16 t2 v2) (h3 : IsHexTok 16 t3 v3)
    (h4 : IsHexTok 64 t4 v4) (h5 : IsHexTok 64 t5 v5) (h6 : IsHexTok 16 t6 v6) :
    GEMOnline.readEvent ⟨t1 :: t2 :: t3 :: t4 :: t5 :: t6 :: rest, tr, false, false⟩
        event vfat
      = (true, ⟨rest, tr, rest.isEmpty && !tr, false⟩,
          { vfat with BC := v1, EC := v2, ChipID := v3, lsData := v4, msData := v5,
                      crc := v6 }) := by
  unfold GEMOnline.readEvent
  rw [if_neg (by omega)]
  simp only [readHex_cons_cons _ _ _ _ _ _ _ h1, readHex_cons_cons _ _ _ _ _ _ _ h2,
    readHex_cons_cons _ _ _ _ _ _ _ h3, readHex_cons_cons _ _ _ _ _ _ _ h4,
    readHex_cons_cons _ _ _ _ _ _ _ h5, readHex_cons _ _ _ _ _ _ h6]

/-- C9: `readEvent` consumes the tokens of a chip sub-frame in the order of
the format, one token per field.  On a good stream beginning with nine
well-formed tokens and for an event number `≥ 0`, `readEvent` of `thldread.cc`
sets BC, EC, bxExp, bxNum, ChipID, lsData, msData, delVT, CRC to the nine
values in this order, returns `true` and leaves the stream after the ninth
token; `readEvent` of `gem-reading.cc` does the same for the six tokens BC,
EC, ChipID, lsData, msData, CRC and leaves the other fields as they were. -/
theorem C9_readEvent_order (s s6 : IStream) (t1 t2 t3 t4 t5 t6 t7 t8 t9 : Token)
    (rest : List Token) (v1 v2 v3 v4 v5 v6 v7 v9 : Nat) (x : ℚ) (event : Int)
    (vfat : VFATData) (hev : 0 ≤ event)
    (hgood : s.good = true) (hgood6 : s6.good = true)
    (htoks : s.toks = t1 :: t2 :: t3 :: t4 :: t5 :: t6 :: t7 :: t8 :: t9 :: rest)
    (htoks6 : s6.toks = t1 :: t2 :: t5 :: t6 :: t7 :: t9 :: rest)
    (h1 : IsHexTok 16 t1 v1) (h2 : IsHexTok 16 t2 v2) (h3 : IsHexTok 32 t3 v3)
    (h4 : IsHexTok 16 t4 v4) (h5 : IsHexTok 16 t5 v5) (h6 : IsHexTok 64 t6 v6)
    (h7 : IsHexTok 64 t7 v7) (h8 : IsDoubleTok t8 x) (h9 : IsHexTok 16 t9 v9) :
    GEMData.readEvent s event vfat
      = (true, { s with toks := rest, eofbit := rest.isEmpty && !s.trailing },
          { BC := v1, EC := v2, bxExp := v3, bxNum := v4, ChipID := v5, lsData := v6,
            msData := v7, delVT := x, crc := v9 }) ∧
    GEMOnline.readEvent s6 event vfat
      = (true, { s6 with toks := rest, eofbit := rest.isEmpty && !s6.trailing },
          { BC := v1, EC := v2, bxExp := vfat.bxExp, bxNum := vfat.bxNum, ChipID := v5,
            lsData := v6, msData := v7, delVT := vfat.delVT, crc := v9 }) := by
  obtain ⟨toks, tr, e, f⟩ := s
  obtain ⟨toks6, tr6, e6, f6⟩ := s6
  simp only [IStream.good, Bool.and_eq_true, Bool.not_eq_true'] at hgood hgood6
  obtain ⟨rfl, rfl⟩ := hgood
  obtain ⟨rfl, rfl⟩ := hgood6
  simp only at htoks htoks6
  subst htoks htoks6
  constructor
  · unfold GEMData.readEvent
    rw [if_neg (by omega)]
    simp only [readHex_cons_cons _ _ _ _ _ _ _ h1, readHex_cons_cons _ _ _ _ _ _ _ h2,
      readHex_cons_cons _ _ _ _ _ _ _ h3, readHex_cons_cons _ _ _ _ _ _ _ h4,
      readHex_cons_cons _ _ _ _ _ _ _ h5, readHex_cons_cons _ _ _ _ _ _ _ h6,
      readHex_cons_cons _ _ _ _ _ _ _ h7, readDouble_cons_cons _ _ _ _ _ _ h8,
      readHex_cons _ _ _ _ _ _ h9]
  · rw [GEMOnline.readEvent_frame t1 t2 t5 t6 t7 t9 rest tr6 v1 v2 v5 v6 v7 v9 event vfat
      hev h1 h2 h5 h6 h7 h9]

theorem C9_readEvent_order_witness :
    GEMData.readEvent
        ⟨[hexTok 0xa123, hexTok 0xc456, hexTok 0x7, hexTok 0x8, hexTok 0xe789,
          hexTok 0x5, hexTok 0x1, doubleTok (25 / 2), hexTok 0xbeef, hexTok 0xa124],
          true, false, false⟩ 0 ⟨0, 0, 0, 0, 0, 0, 0, 0, 0⟩
      = (true, ⟨[hexTok 0xa124], true, false, false⟩,
          ⟨0xa123, 0xc456, 0x7, 0x8, 0xe789, 0x5, 0x1, 25 / 2, 0xbeef⟩) ∧
    GEMOnline.readEvent
        ⟨[hexTok 0xa123, hexTok 0xc456, hexTok 0xe789, hexTok 0x5, hexTok 0x1,
          hexTok 0xbeef, hexTok 0xa124], true, false, false⟩ 0
        ⟨0, 0, 0, 0, 0, 0, 0, 0, 0⟩
      = (true, ⟨[hexTok 0xa124], true, false, false⟩,
          ⟨0xa123, 0xc456, 0, 0, 0xe789, 0x5, 0x1, 0, 0xbeef⟩) := by
  have h := C9_readEvent_order
    ⟨[hexTok 0xa123, hexTok 0xc456, hexTok 0x7, hexTok 0x8, hexTok 0xe789,
      hexTok 0x5, hexTok 0x1, doubleTok (25 / 2), hexTok 0xbeef, hexTok 0xa124],
      true, false, false⟩
    ⟨[hexTok 0xa123, hexTok 0xc456, hexTok 0xe789, hexTok 0x5, hexTok 0x1,
      hexTok 0xbeef, hexTok 0xa124], true, false, false⟩
    (hexTok 0xa123) (hexTok 0xc456) (hexTok 0x7) (hexTok 0x8) (hexTok 0xe789)
    (hexTok 0x5) (hexTok 0x1) (doubleTok (25 / 2)) (hexTok 0xbeef) [hexTok 0xa124]
    0xa123 0xc456 0x7 0x8 0xe789 0x5 0x1 0xbeef (25 / 2) 0 ⟨0, 0, 0, 0, 0, 0, 0, 0, 0⟩
    (by decide) rfl rfl rfl rfl
    ⟨rfl, by decide⟩ ⟨rfl, by decide⟩ ⟨rfl, by decide⟩ ⟨rfl, by decide⟩ ⟨rfl, by decide⟩
    ⟨rfl, by decide⟩ ⟨rfl, by decide⟩ rfl ⟨rfl, by decide⟩
  simpa using h

/-! ## The chip sub-frame loop -/

theorem toU64_natCast (n : Nat) (h : n < 2 ^ 64) : toU64 (n : Int) = n := by
  unfold toU64
  omega

theorem i32_natCast_succ (n : Nat) (h : n + 1 < 2 ^ 31) :
    i32 ((n : Int) + 1) = ((n + 1 : Nat) : Int) := by
  unfold i32
  omega

namespace GEMOnline

theorem vfatLoop_eq_vfatIter (ievent : Int) (S : Nat) (hS : S < 2 ^ 31) :
    ∀ (n i fuel : Nat) (st : MainState), i + n = S → n < fuel →
      vfatLoop ievent S fuel (i : Int) st = some (vfatIter ievent n i st) := by
  intro n
  induction n with
  | zero =>
    intro i fuel st hi hf
    obtain ⟨fuel, rfl⟩ : ∃ k, fuel = k + 1 := ⟨fuel - 1, by omega⟩
    have h64 : toU64 (i : Int) = i := toU64_natCast i (by omega)
    simp [vfatLoop, vfatIter, h64]
    omega
  | succ n ih =>
    intro i fuel st hi hf
    obtain ⟨fuel, rfl⟩ : ∃ k, fuel = k + 1 := ⟨fuel - 1, by omega⟩
    have h64 : toU64 (i : Int) = i := toU64_natCast i (by omega)
    have h32 : i32 ((i : Int) + 1) = ((i + 1 : Nat) : Int) :=
      i32_natCast_succ i (by omega)
    have hlt : i < S := by omega
    simp only [vfatLoop, vfatIter, h64, hlt, if_true, h32]
    exact ih (i + 1) fuel _ (by omega) (by omega)

theorem vfatLoop_sumVFAT (ievent : Int) (header : Nat) (st : MainState) :
    vfatLoop ievent (sumVFAT header) (2 ^ 32) 0 st
      = some (vfatIter ievent (sumVFAT header) 0 st) := by
  have h := sumVFAT_lt header
  have := vfatLoop_eq_vfatIter ievent (sumVFAT header) (by omega) (sumVFAT header) 0
    (2 ^ 32) st (by omega) (by omega)
  simpa using this

theorem vfatBody_fills_length (ievent ivfat : Int) (st : MainState) :
    (vfatBody ievent ivfat st).fills.length = st.fills.length + 1 := by
  simp [vfatBody]

theorem vfatIter_fills_length (ievent : Int) :
    ∀ (n i : Nat) (st : MainState),
      (vfatIter ievent n i st).fills.length = st.fills.length + n := by
  intro n
  induction n with
  | zero => intro i st; simp [vfatIter]
  | succ n ih =>
    intro i st
    rw [vfatIter, ih, vfatBody_fills_length]
    omega

end GEMOnline

/-! ## Extraction from an exhausted stream -/

theorem IStream.drained_drained (s : IStream) : s.drained.drained = s.drained := by
  obtain ⟨toks, tr, e, f⟩ := s
  cases e <;> cases f <;> simp [IStream.drained]

theorem IStream.exhausted_drained (s : IStream) : s.drained.exhausted = true := by
  simp [IStream.drained, IStream.exhausted]

theorem IStream.extract_exhausted {α : Type} (parse : Token → Option (α × Bool))
    (zero old : α) (s : IStream) (h : s.exhausted = true) :
    IStream.extract parse zero s old = (s.drained, old) := by
  obtain ⟨toks, tr, e, f⟩ := s
  cases e <;> cases f <;> cases toks <;>
    simp_all [IStream.extract, IStream.exhausted, IStream.drained, IStream.good]

theorem readHex_exhausted (w : Nat) (s : IStream) (old : Nat) (h : s.exhausted = true) :
    readHex w s old = (s.drained, old) :=
  IStream.extract_exhausted _ _ _ s h

namespace GEMOnline

theorem readEvent_exhausted (s : IStream) (event : Int) (vfat : VFATData)
    (hev : 0 ≤ event) (h : s.exhausted = true) :
    readEvent s event vfat = (true, s.drained, vfat) := by
  have hd := IStream.exhausted_drained s
  unfold readEvent
  rw [if_neg (by omega)]
  simp only [readHex_exhausted _ _ _ h, readHex_exhausted _ _ _ hd,
    IStream.drained_drained]

theorem headerStep_exhausted (st : MainState) (h : st.inpf.exhausted = true) :
    headerStep st = { st with inpf := st.inpf.drained } := by
  simp [headerStep, readGEBheader, readHex_exhausted _ _ _ h]

theorem trailerStep_exhausted (st : MainState) (h : st.inpf.exhausted = true) :
    trailerStep st = { st with inpf := st.inpf.drained } := by
  simp [trailerStep, readGEBtrailer, readHex_exhausted _ _ _ h]

theorem vfatBody_exhausted (ievent ivfat : Int) (st : MainState) (hev : 0 ≤ ievent)
    (h : st.inpf.exhausted = true) :
    vfatBody ievent ivfat st
      = { st with inpf := st.inpf.drained, fills := st.fills ++ [mkFill ivfat st.vfat] } := by
  simp [vfatBody, readEvent_exhausted _ _ _ hev h]

theorem fillsFrom_replicate_succ (v : VFATData) :
    ∀ (n i : Nat), fillsFrom i (List.replicate (n + 1) v)
      = mkFill (i : Int) v :: fillsFrom (i + 1) (List.replicate n v) := by
  intro n i
  simp [List.replicate_succ, fillsFrom]

theorem fillsFrom_length : ∀ (fs : List VFATData) (i : Nat),
    (fillsFrom i fs).length = fs.length := by
  intro fs
  induction fs with
  | nil => intro i; simp [fillsFrom]
  | cons f fs ih => intro i; simp [fillsFrom, ih]

theorem vfatIter_exhausted (ievent : Int) (hev : 0 ≤ ievent) :
    ∀ (n i : Nat) (st : MainState), st.inpf.exhausted = true →
      (vfatIter ievent n i st).inpf.drained = st.inpf.drained ∧
      (vfatIter ievent n i st).inpf.exhausted = true ∧
      (vfatIter ievent n i st).geb = st.geb ∧
      (vfatIter ievent n i st).vfat = st.vfat ∧
      (vfatIter ievent n i st).fills
        = st.fills ++ fillsFrom i (List.replicate n st.vfat) := by
  intro n
  induction n with
  | zero => intro i st h; simp [vfatIter, fillsFrom, h]
  | succ n ih =>
    intro i st h
    rw [vfatIter, vfatBody_exhausted _ _ _ hev h]
    obtain ⟨h1, h2, h3, h4, h5⟩ := ih (i + 1)
      { st with inpf := st.inpf.drained, fills := st.fills ++ [mkFill (i : Int) st.vfat] }
      (IStream.exhausted_drained _)
    refine ⟨?_, h2, h3, h4, ?_⟩
    · rw [h1, IStream.drained_drained]
    · rw [h5, fillsFrom_replicate_succ]
      simp

theorem eventBody_eq (ievent : Int) (st : MainState) :
    eventBody ievent st
      = some (trailerStep
          (vfatIter ievent (sumVFAT (headerStep st).geb.header) 0 (headerStep st))) := by
  simp only [eventBody, vfatLoop_sumVFAT]

end GEMOnline

/-! ## The event loop -/

namespace GEMOnline

theorem eventLoop_step (fuel : Nat) (ievent : Int) (st : MainState)
    (h1 : ievent < ieventMax) (h2 : st.inpf.eofbit = false) (h3 : st.inpf.failbit = false) :
    eventLoop (fuel + 1) ievent st
      = eventLoop fuel (i32 (ievent + 1))
          (trailerStep
            (vfatIter ievent (sumVFAT (headerStep st).geb.header) 0 (headerStep st))) := by
  simp [eventLoop, h1, IStream.eof, IStream.good, h2, h3, eventBody_eq]

theorem eventLoop_eof (fuel : Nat) (ievent : Int) (st : MainState)
    (h1 : ievent < ieventMax) (h2 : st.inpf.eofbit = true) :
    eventLoop (fuel + 1) ievent st = some ⟨LoopExit.eof, ievent, st⟩ := by
  simp [eventLoop, h1, IStream.eof, h2]

theorem headerStep_cons (t : Token) (rest : List Token) (tr : Bool) (geb : GEBData)
    (vfat : VFATData) (fills : List Fill) (h : Nat) (ht : IsHexTok 64 t h) :
    headerStep ⟨⟨t :: rest, tr, false, false⟩, geb, vfat, fills⟩
      = ⟨⟨rest, tr, rest.isEmpty && !tr, false⟩, { geb with header := h }, vfat, fills⟩ := by
  simp [headerStep, readGEBheader, readHex_cons 64 t rest tr _ h ht]

theorem trailerStep_cons (t : Token) (rest : List Token) (tr : Bool) (geb : GEBData)
    (vfat : VFATData) (fills : List Fill) (h : Nat) (ht : IsHexTok 64 t h) :
    trailerStep ⟨⟨t :: rest, tr, false, false⟩, geb, vfat, fills⟩
      = ⟨⟨rest, tr, rest.isEmpty && !tr, false⟩, { geb with trailer := h }, vfat, fills⟩ := by
  simp [trailerStep, readGEBtrailer, readHex_cons 64 t rest tr _ h ht]

/-- The chip sub-frame loop and the trailer read on an exhausted stream: `n`
passes over the unchanged record `vfat`, the trailer keeps its value. -/
theorem subframes_exhausted (ievent : Int) (hev : 0 ≤ ievent) (n : Nat) (st : MainState)
    (h : st.inpf.exhausted = true) :
    trailerStep (vfatIter ievent n 0 st)
      = { st with inpf := st.inpf.drained,
                  fills := st.fills ++ fillsFrom 0 (List.replicate n st.vfat) } := by
  obtain ⟨h1, h2, h3, h4, h5⟩ := vfatIter_exhausted ievent hev n 0 st h
  rw [trailerStep_exhausted _ h2]
  generalize vfatIter ievent n 0 st = r at h1 h2 h3 h4 h5 ⊢
  obtain ⟨ri, rg, rv, rf⟩ := r
  simp only at h1 h2 h3 h4 h5 ⊢
  subst h3 h4 h5
  rw [h1]

/-- One event cycle on a state whose stream is exhausted: the header and the
trailer keep their values, the chip sub-frame loop makes `sumVFAT` passes over
the unchanged record `vfat`. -/
theorem cycle_exhausted (ievent : Int) (hev : 0 ≤ ievent) (st : MainState)
    (h : st.inpf.exhausted = true) :
    trailerStep (vfatIter ievent (sumVFAT (headerStep st).geb.header) 0 (headerStep st))
      = { st with inpf := st.inpf.drained,
                  fills := st.fills ++
                    fillsFrom 0 (List.replicate (sumVFAT st.geb.header) st.vfat) } := by
  rw [headerStep_exhausted st h,
    subframes_exhausted ievent hev _ _ (IStream.exhausted_drained _)]
  simp only [IStream.drained_drained]

theorem i32_one : i32 (0 + 1) = 1 := by decide

/-- The run of `main` on a file that holds a board header and nothing else. -/
theorem main_truncated (t : Token) (h : Nat) (ht : IsHexTok 64 t h) (tr : Bool)
    (geb : GEBData) (vfat : VFATData) :
    main ⟨[t], tr, false, false⟩ geb vfat
      = some ⟨LoopExit.eof, 1,
          ⟨⟨[], tr, true, true⟩, { geb with header := h }, vfat,
            fillsFrom 0 (List.replicate (sumVFAT h) vfat)⟩⟩ := by
  have hmax : ieventMax.toNat + 1 = 8999999 + 1 + 1 := by decide
  unfold main
  rw [hmax, eventLoop_step _ _ _ (by decide) rfl rfl, headerStep_cons t [] tr geb vfat [] h ht,
    subframes_exhausted 0 (le_refl 0) _ _ (by simp [IStream.exhausted]), i32_one,
    eventLoop_eof _ _ _ (by decide) (by cases tr <;> simp [IStream.drained])]
  cases tr <;> simp [IStream.drained]

end GEMOnline

/-! ## Well-formed board frames -/

namespace GEMOnline

theorem isHexTok_hexTok (w v : Nat) (h : v < 2 ^ w) : IsHexTok w (hexTok v) v :=
  ⟨rfl, h⟩

theorem chan0xf_loadFrame (f old : VFATData) : chan0xf (loadFrame f old) = chan0xf f := by
  funext c
  simp [chan0xf, loadFrame]

theorem mkFill_loadFrame (ivfat : Int) (f old : VFATData) :
    mkFill ivfat (loadFrame f old) = mkFill ivfat f := by
  simp only [mkFill, chan0xf_loadFrame]
  simp [loadFrame]

theorem vfatBody_frame (ievent : Int) (hev : 0 ≤ ievent) (ivfat : Int) (f : VFATData)
    (hf : FrameOK f) (u : Token) (rest : List Token) (tr : Bool) (geb : GEBData)
    (vfat : VFATData) (fills : List Fill) :
    vfatBody ievent ivfat ⟨⟨frameToks f ++ u :: rest, tr, false, false⟩, geb, vfat, fills⟩
      = ⟨⟨u :: rest, tr, false, false⟩, geb, loadFrame f vfat, fills ++ [mkFill ivfat f]⟩ := by
  obtain ⟨h1, h2, h3, h4, h5, h6⟩ := hf
  have hr := readEvent_frame (hexTok f.BC) (hexTok f.EC) (hexTok f.ChipID)
    (hexTok f.lsData) (hexTok f.msData) (hexTok f.crc) (u :: rest) tr f.BC f.EC f.ChipID
    f.lsData f.msData f.crc ievent vfat hev (isHexTok_hexTok _ _ h1)
    (isHexTok_hexTok _ _ h2) (isHexTok_hexTok _ _ h3) (isHexTok_hexTok _ _ h4)
    (isHexTok_hexTok _ _ h5) (isHexTok_hexTok _ _ h6)
  have ht : frameToks f ++ u :: rest
      = hexTok f.BC :: hexTok f.EC :: hexTok f.ChipID :: hexTok f.lsData ::
          hexTok f.msData :: hexTok f.crc :: u :: rest := by
    simp [frameToks]
  unfold vfatBody
  simp only [ht, hr]
  rw [← mkFill_loadFrame ivfat f vfat]
  simp [loadFrame]

theorem vfatIter_frames (ievent : Int) (hev : 0 ≤ ievent) (u : Token) (rest : List Token)
    (tr : Bool) (geb : GEBData) :
    ∀ (frames : List VFATData) (i : Nat) (vfat : VFATData) (fills : List Fill),
      (∀ f ∈ frames, FrameOK f) →
      vfatIter ievent frames.length i
          ⟨⟨(frames.map frameToks).flatten ++ u :: rest, tr, false, false⟩, geb, vfat, fills⟩
        = ⟨⟨u :: rest, tr, false, false⟩, geb,
            frames.foldl (fun v f => loadFrame f v) vfat, fills ++ fillsFrom i frames⟩ := by
  intro frames
  induction frames with
  | nil => intro i vfat fills _; simp [vfatIter, fillsFrom]
  | cons f fs ih =>
    intro i vfat fills hok
    have hf : FrameOK f := hok f (List.mem_cons_self _ _)
    have hfs : ∀ g ∈ fs, FrameOK g := fun g hg => hok g (List.mem_cons_of_mem _ hg)
    have ht : ((f :: fs).map frameToks).flatten ++ u :: rest
        = frameToks f ++ ((fs.map frameToks).flatten ++ u :: rest) := by
      simp
    rw [List.length_cons, vfatIter, ht]
    obtain ⟨u2, rest2, h2⟩ : ∃ u2 rest2, (fs.map frameToks).flatten ++ u :: rest
        = u2 :: rest2 := by
      cases hq : (fs.map frameToks).flatten ++ u :: rest with
      | nil => simp at hq
      | cons a b => exact ⟨a, b, rfl⟩
    rw [h2, vfatBody_frame ievent hev _ f hf u2 rest2, ← h2, ih (i + 1) _ _ hfs]
    simp [fillsFrom]

theorem isEmpty_append_singleton {α : Type} (l : List α) (a : α) :
    (l ++ [a]).isEmpty = false := by
  cases l <;> rfl

/-- The run of `main` on a file that holds one well-formed board frame and
ends with the last character of the trailer token: one event cycle, one pass
per chip sub-frame, then the loop is left at the `eof()` test. -/
theorem main_board_no_trailing (header trailer : Nat) (frames : List VFATData)
    (hh : header < 2 ^ 64) (ht : trailer < 2 ^ 64) (hn : frames.length = sumVFAT header)
    (hok : ∀ f ∈ frames, FrameOK f) (geb : GEBData) (vfat : VFATData) :
    main ⟨boardToks header frames trailer, false, false, false⟩ geb vfat
      = some ⟨LoopExit.eof, 1,
          ⟨⟨[], false, true, false⟩, ⟨header, trailer⟩,
            frames.foldl (fun v f => loadFrame f v) vfat, fillsFrom 0 frames⟩⟩ := by
  have hmax : ieventMax.toNat + 1 = 8999999 + 1 + 1 := by decide
  unfold main boardToks
  rw [hmax, eventLoop_step _ _ _ (by decide) rfl rfl,
    headerStep_cons (hexTok header) _ false geb vfat [] header (isHexTok_hexTok _ _ hh)]
  simp only [isEmpty_append_singleton, Bool.false_and]
  rw [← hn, vfatIter_frames 0 (le_refl 0) (hexTok trailer) [] false _ frames 0 vfat [] hok,
    trailerStep_cons (hexTok trailer) [] false _ _ _ trailer (isHexTok_hexTok _ _ ht), i32_one,
    eventLoop_eof _ _ _ (by decide) (by simp)]
  simp

/-- The run of `main` on a file that holds one well-formed board frame
followed by whitespace (a final newline): after the first event cycle the
`eof()` test does not fire, a second cycle runs on the exhausted stream and
repeats `sumVFAT` passes over the record left by the last chip sub-frame. -/
theorem main_board_trailing (header trailer : Nat) (frames : List VFATData)
    (hh : header < 2 ^ 64) (ht : trailer < 2 ^ 64) (hn : frames.length = sumVFAT header)
    (hok : ∀ f ∈ frames, FrameOK f) (geb : GEBData) (vfat : VFATData) :
    main ⟨boardToks header frames trailer, true, false, false⟩ geb vfat
      = some ⟨LoopExit.eof, 2,
          ⟨⟨[], true, true, true⟩, ⟨header, trailer⟩,
            frames.foldl (fun v f => loadFrame f v) vfat,
            fillsFrom 0 frames ++
              fillsFrom 0 (List.replicate (sumVFAT header)
                (frames.foldl (fun v f => loadFrame f v) vfat))⟩⟩ := by
  have hmax : ieventMax.toNat + 1 = 8999998 + 1 + 1 + 1 := by decide
  have h2 : i32 (1 + 1) = 2 := by decide
  unfold main boardToks
  rw [hmax, eventLoop_step _ _ _ (by decide) rfl rfl,
    headerStep_cons (hexTok header) _ true geb vfat [] header (isHexTok_hexTok _ _ hh)]
  simp only [isEmpty_append_singleton, Bool.false_and]
  rw [← hn, vfatIter_frames 0 (le_refl 0) (hexTok trailer) [] true _ frames 0 vfat [] hok,
    trailerStep_cons (hexTok trailer) [] true _ _ _ trailer (isHexTok_hexTok _ _ ht), i32_one,
    eventLoop_step _ _ _ (by decide) (by simp) (by simp),
    cycle_exhausted 1 (by decide) _ (by simp [IStream.exhausted]), h2,
    eventLoop_eof _ _ _ (by decide) (by simp [IStream.drained])]
  simp [IStream.drained, hn]

end GEMOnline

/-! ## The event driver on one board frame -/

/-- C5 (code defect): a file holding one well-formed board frame with
sub-frame count 2 and ending with a newline.  After the trailer the `eof()`
test at the head of the event loop does not fire, so a second event cycle is
run: its header read fails and leaves the count 2 in place, and the chip
sub-frame loop makes two more passes over the record of the last sub-frame.
The loop is left with `ievent = 2` and four passes instead of two.  The same
frame with no character after the trailer gives one cycle and two passes. -/
theorem C5_second_cycle_after_trailing_newline :
    GEMOnline.main
        ⟨GEMOnline.boardToks 0x20000002
          [⟨0xa001, 0xc010, 0, 0, 0xe0a1, 0xff, 0x1, 0, 0x1111⟩,
           ⟨0xa002, 0xc010, 0, 0, 0xe0a2, 0x0, 0x8000000000000000, 0, 0x2222⟩]
          0xabcd0000, true, false, false⟩
        ⟨0, 0⟩ ⟨0, 0, 0, 0, 0, 0, 0, 0, 0⟩
      = some ⟨GEMOnline.LoopExit.eof, 2,
          ⟨⟨[], true, true, true⟩, ⟨0x20000002, 0xabcd0000⟩,
            ⟨0xa002, 0xc010, 0, 0, 0xe0a2, 0x0, 0x8000000000000000, 0, 0x2222⟩,
            [GEMOnline.mkFill 0 ⟨0xa001, 0xc010, 0, 0, 0xe0a1, 0xff, 0x1, 0, 0x1111⟩,
             GEMOnline.mkFill 1
               ⟨0xa002, 0xc010, 0, 0, 0xe0a2, 0x0, 0x8000000000000000, 0, 0x2222⟩,
             GEMOnline.mkFill 0
               ⟨0xa002, 0xc010, 0, 0, 0xe0a2, 0x0, 0x8000000000000000, 0, 0x2222⟩,
             GEMOnline.mkFill 1
               ⟨0xa002, 0xc010, 0, 0, 0xe0a2, 0x0, 0x8000000000000000, 0, 0x2222⟩]⟩⟩ ∧
    GEMOnline.main
        ⟨GEMOnline.boardToks 0x20000002
          [⟨0xa001, 0xc010, 0, 0, 0xe0a1, 0xff, 0x1, 0, 0x1111⟩,
           ⟨0xa002, 0xc010, 0, 0, 0xe0a2, 0x0, 0x8000000000000000, 0, 0x2222⟩]
          0xabcd0000, false, false, false⟩
        ⟨0, 0⟩ ⟨0, 0, 0, 0, 0, 0, 0, 0, 0⟩
      = some ⟨GEMOnline.LoopExit.eof, 1,
          ⟨⟨[], false, true, false⟩, ⟨0x20000002, 0xabcd0000⟩,
            ⟨0xa002, 0xc010, 0, 0, 0xe0a2, 0x0, 0x8000000000000000, 0, 0x2222⟩,
            [GEMOnline.mkFill 0 ⟨0xa001, 0xc010, 0, 0, 0xe0a1, 0xff, 0x1, 0, 0x1111⟩,
             GEMOnline.mkFill 1
               ⟨0xa002, 0xc010, 0, 0, 0xe0a2, 0x0, 0x8000000000000000, 0, 0x2222⟩]⟩⟩ := by
  decide

/-! ## Truncated and oversized board frames -/

/-- C6 (counterexample): the file `20000002` followed by a newline, a board
header with sub-frame count 2 and nothing after it.  The run reports no
error: the event loop is left at the `eof()` test after one cycle, and two
records computed from the untouched `vfat` went to the histograms. -/
theorem C6_truncated_ends_clean_with_stale_fills :
    GEMOnline.main ⟨[hexTok 0x20000002], true, false, false⟩ ⟨0, 0⟩
        ⟨0, 0, 0, 0, 0, 0, 0, 0, 0⟩
      = some ⟨GEMOnline.LoopExit.eof, 1,
          ⟨⟨[], true, true, true⟩, ⟨0x20000002, 0⟩, ⟨0, 0, 0, 0, 0, 0, 0, 0, 0⟩,
            [GEMOnline.mkFill 0 ⟨0, 0, 0, 0, 0, 0, 0, 0, 0⟩,
             GEMOnline.mkFill 1 ⟨0, 0, 0, 0, 0, 0, 0, 0, 0⟩]⟩⟩ := by
  decide

/-- C6 (amended): for every file that ends right after a board header whose
sub-frame count `N` is at least 1 (with or without trailing whitespace), the
run reports no error.  `readEvent` is called `N` times and leaves the record
`vfat` as it was, `N` records computed from that unchanged record go to the
histograms, the trailer keeps its value, and the event loop is left at the
`eof()` test after one cycle. -/
theorem C6_truncated_after_header (t : Token) (h : Nat) (ht : IsHexTok 64 t h)
    (hN : 1 ≤ sumVFAT h) (tr : Bool) (geb : GEBData) (vfat : VFATData) :
    GEMOnline.main ⟨[t], tr, false, false⟩ geb vfat
      = some ⟨GEMOnline.LoopExit.eof, 1,
          ⟨⟨[], tr, true, true⟩, { geb with header := h }, vfat,
            GEMOnline.fillsFrom 0 (List.replicate (sumVFAT h) vfat)⟩⟩ ∧
    (GEMOnline.fillsFrom 0 (List.replicate (sumVFAT h) vfat)).length = sumVFAT h ∧
    GEMOnline.fillsFrom 0 (List.replicate (sumVFAT h) vfat) ≠ [] := by
  have hlen : (GEMOnline.fillsFrom 0 (List.replicate (sumVFAT h) vfat)).length
      = sumVFAT h := by
    rw [GEMOnline.fillsFrom_length, List.length_replicate]
  refine ⟨GEMOnline.main_truncated t h ht tr geb vfat, hlen, ?_⟩
  intro hnil
  rw [hnil] at hlen
  simp at hlen
  omega

theorem C6_truncated_after_header_witness :
    GEMOnline.main ⟨[hexTok 0x20000001], false, false, false⟩ ⟨7, 7⟩
        ⟨1, 2, 3, 4, 5, 6, 7, 8, 9⟩
      = some ⟨GEMOnline.LoopExit.eof, 1,
          ⟨⟨[], false, true, true⟩, { (⟨7, 7⟩ : GEBData) with header := 0x20000001 },
            ⟨1, 2, 3, 4, 5, 6, 7, 8, 9⟩,
            GEMOnline.fillsFrom 0
              (List.replicate (sumVFAT 0x20000001) ⟨1, 2, 3, 4, 5, 6, 7, 8, 9⟩)⟩⟩ ∧
    (GEMOnline.fillsFrom 0
      (List.replicate (sumVFAT 0x20000001) ⟨1, 2, 3, 4, 5, 6, 7, 8, 9⟩)).length
        = sumVFAT 0x20000001 ∧
    GEMOnline.fillsFrom 0
      (List.replicate (sumVFAT 0x20000001) ⟨1, 2, 3, 4, 5, 6, 7, 8, 9⟩) ≠ [] :=
  C6_truncated_after_header (hexTok 0x20000001) 0x20000001 ⟨rfl, by decide⟩ (by decide)
    false ⟨7, 7⟩ ⟨1, 2, 3, 4, 5, 6, 7, 8, 9⟩

namespace GEMOnline

theorem trailerStep_fills (st : MainState) : (trailerStep st).fills = st.fills := by
  simp [trailerStep]

theorem trailerStep_header (st : MainState) :
    (trailerStep st).geb.header = st.geb.header := by
  simp [trailerStep, readGEBtrailer]

theorem vfatIter_geb (ievent : Int) :
    ∀ (n i : Nat) (st : MainState), (vfatIter ievent n i st).geb = st.geb := by
  intro n
  induction n with
  | zero => intro i st; simp [vfatIter]
  | succ n ih => intro i st; rw [vfatIter, ih]; simp [vfatBody]

end GEMOnline

/-- C7 (counterexample): the file `fffffff`, a board header whose count field
is `0xFFFFFFF`.  The run raises no error, the event loop is left at the
`eof()` test, and the chip sub-frame loop made `0xFFFFFFF = 268435455`
passes, each calling `readEvent`. -/
theorem C7_count_0xFFFFFFF_loops :
    ∃ r, GEMOnline.main ⟨[hexTok 0xFFFFFFF], false, false, false⟩ ⟨0, 0⟩
          ⟨0, 0, 0, 0, 0, 0, 0, 0, 0⟩ = some r ∧
      r.exit = GEMOnline.LoopExit.eof ∧ r.st.fills.length = 268435455 := by
  refine ⟨_, GEMOnline.main_truncated (hexTok 0xFFFFFFF) 0xFFFFFFF ⟨rfl, by decide⟩
    false ⟨0, 0⟩ ⟨0, 0, 0, 0, 0, 0, 0, 0, 0⟩, rfl, ?_⟩
  have hs : sumVFAT 0xFFFFFFF = 268435455 := by decide
  rw [GEMOnline.fillsFrom_length, List.length_replicate, hs]

/-- C7 (amended): the sub-frame count is not bounds-checked.  For every board
header word `h` read from the stream in an event cycle, whatever follows it in
the stream, the cycle completes with the chip sub-frame loop having made
exactly `sumVFAT h = h mod 2^28` passes (calls of `readEvent`), a number up to
`0xFFFFFFF`. -/
theorem C7_loop_runs_sumVFAT_passes (ievent : Int) (t : Token) (h : Nat)
    (ht : IsHexTok 64 t h) (rest : List Token) (tr : Bool) (geb : GEBData)
    (vfat : VFATData) (fills : List GEMOnline.Fill) :
    ∃ st, GEMOnline.eventBody ievent ⟨⟨t :: rest, tr, false, false⟩, geb, vfat, fills⟩
        = some st ∧
      st.geb.header = h ∧ sumVFAT h = h % 2 ^ 28 ∧
      st.fills.length = fills.length + sumVFAT h := by
  refine ⟨_, GEMOnline.eventBody_eq ievent _, ?_, sumVFAT_eq h, ?_⟩
  · rw [GEMOnline.trailerStep_header, GEMOnline.vfatIter_geb,
      GEMOnline.headerStep_cons t rest tr geb vfat fills h ht]
  · rw [GEMOnline.trailerStep_fills, GEMOnline.vfatIter_fills_length,
      GEMOnline.headerStep_cons t rest tr geb vfat fills h ht]

theorem C7_loop_runs_sumVFAT_passes_witness :
    ∃ st, GEMOnline.eventBody 0
        ⟨⟨[hexTok 0xFFFFFFF, hexTok 0xa001], true, false, false⟩, ⟨0, 0⟩,
          ⟨0, 0, 0, 0, 0, 0, 0, 0, 0⟩, []⟩ = some st ∧
      st.geb.header = 0xFFFFFFF ∧ sumVFAT 0xFFFFFFF = 0xFFFFFFF % 2 ^ 28 ∧
      st.fills.length = ([] : List GEMOnline.Fill).length + sumVFAT 0xFFFFFFF :=
  C7_loop_runs_sumVFAT_passes 0 (hexTok 0xFFFFFFF) 0xFFFFFFF ⟨rfl, by decide⟩
    [hexTok 0xa001] true ⟨0, 0⟩ ⟨0, 0, 0, 0, 0, 0, 0, 0, 0⟩ []

/-! ## Control nibbles -/

/-- C8 (counterexample): two chip sub-frames that differ only in the control
nibble of ChipID, `0x0123` against `0xe123`.  The specification's condition
holds for the first and not for the second, yet `readEvent` gives the same
return value `true` and the same stream position for both, the records differ
in the ChipID word alone, and what goes to the histograms differs in the
nibble `b1110` alone: nothing marks the first frame. -/
theorem C8_mismatch_leaves_no_mark :
    specControlBitMismatch ⟨0xa001, 0xc010, 0, 0, 0x0123, 0xff, 0x1, 0, 0x1111⟩ = true ∧
    specControlBitMismatch ⟨0xa001, 0xc010, 0, 0, 0xe123, 0xff, 0x1, 0, 0x1111⟩ = false ∧
    GEMOnline.readEvent
        ⟨GEMOnline.frameToks ⟨0xa001, 0xc010, 0, 0, 0x0123, 0xff, 0x1, 0, 0x1111⟩
          ++ [hexTok 0], true, false, false⟩ 0 ⟨0, 0, 0, 0, 0, 0, 0, 0, 0⟩
      = (true, ⟨[hexTok 0], true, false, false⟩,
          ⟨0xa001, 0xc010, 0, 0, 0x0123, 0xff, 0x1, 0, 0x1111⟩) ∧
    GEMOnline.readEvent
        ⟨GEMOnline.frameToks ⟨0xa001, 0xc010, 0, 0, 0xe123, 0xff, 0x1, 0, 0x1111⟩
          ++ [hexTok 0], true, false, false⟩ 0 ⟨0, 0, 0, 0, 0, 0, 0, 0, 0⟩
      = (true, ⟨[hexTok 0], true, false, false⟩,
          ⟨0xa001, 0xc010, 0, 0, 0xe123, 0xff, 0x1, 0, 0x1111⟩) ∧
    GEMOnline.mkFill 0 ⟨0xa001, 0xc010, 0, 0, 0x0123, 0xff, 0x1, 0, 0x1111⟩
      = { GEMOnline.mkFill 0 ⟨0xa001, 0xc010, 0, 0, 0xe123, 0xff, 0x1, 0, 0x1111⟩
          with b1110 := 0x0 } := by
  decide

/-- C8 (amended): a control-nibble mismatch does not abort decoding and is
not flagged.  For every chip sub-frame of six well-formed tokens in which a
control nibble differs from `1010`, `1100`, `1110`, and every event number
`≥ 0`, `readEvent` returns `true`, leaves the stream after the sixth token and
the record holds exactly the tokens read (BC, EC, ChipID, both channel words,
CRC); the three nibbles go to the histograms as extracted. -/
theorem C8_mismatch_frame_populated (t1 t2 t3 t4 t5 t6 : Token) (rest : List Token)
    (tr : Bool) (v1 v2 v3 v4 v5 v6 : Nat) (event ivfat : Int) (vfat : VFATData)
    (hev : 0 ≤ event)
    (h1 : IsHexTok 16 t1 v1) (h2 : IsHexTok 16 t2 v2) (h3 : IsHexTok 16 t3 v3)
    (h4 : IsHexTok 64 t4 v4) (h5 : IsHexTok 64 t5 v5) (h6 : IsHexTok 16 t6 v6)
    (_hmis : specControlBitMismatch
      { vfat with BC := v1, EC := v2, ChipID := v3, lsData := v4, msData := v5,
                  crc := v6 } = true) :
    GEMOnline.readEvent ⟨t1 :: t2 :: t3 :: t4 :: t5 :: t6 :: rest, tr, false, false⟩
        event vfat
      = (true, ⟨rest, tr, rest.isEmpty && !tr, false⟩,
          { vfat with BC := v1, EC := v2, ChipID := v3, lsData := v4, msData := v5,
                      crc := v6 }) ∧
    (GEMOnline.mkFill ivfat
      { vfat with BC := v1, EC := v2, ChipID := v3, lsData := v4, msData := v5,
                  crc := v6 }).b1010 = v1 / 4096 ∧
    (GEMOnline.mkFill ivfat
      { vfat with BC := v1, EC := v2, ChipID := v3, lsData := v4, msData := v5,
                  crc := v6 }).b1100 = v2 / 4096 ∧
    (GEMOnline.mkFill ivfat
      { vfat with BC := v1, EC := v2, ChipID := v3, lsData := v4, msData := v5,
                  crc := v6 }).b1110 = v3 / 4096 := by
  have b1 := h1.2
  have b2 := h2.2
  have b3 := h3.2
  refine ⟨GEMOnline.readEvent_frame t1 t2 t3 t4 t5 t6 rest tr v1 v2 v3 v4 v5 v6 event vfat
    hev h1 h2 h3 h4 h5 h6, ?_, ?_, ?_⟩
  · simp only [GEMOnline.mkFill, ctrlBits_eq]; omega
  · simp only [GEMOnline.mkFill, ctrlBits_eq]; omega
  · simp only [GEMOnline.mkFill, ctrlBits_eq]; omega

theorem C8_mismatch_frame_populated_witness :
    GEMOnline.readEvent
        ⟨[hexTok 0xa001, hexTok 0xc010, hexTok 0x0123, hexTok 0xff, hexTok 0x1,
          hexTok 0x1111, hexTok 0], true, false, false⟩ 0 ⟨0, 0, 0, 0, 0, 0, 0, 0, 0⟩
      = (true, ⟨[hexTok 0], true, false, false⟩,
          ⟨0xa001, 0xc010, 0, 0, 0x0123, 0xff, 0x1, 0, 0x1111⟩) ∧
    (GEMOnline.mkFill 0 ⟨0xa001, 0xc010, 0, 0, 0x0123, 0xff, 0x1, 0, 0x1111⟩).b1010
      = 0xa ∧
    (GEMOnline.mkFill 0 ⟨0xa001, 0xc010, 0, 0, 0x0123, 0xff, 0x1, 0, 0x1111⟩).b1100
      = 0xc ∧
    (GEMOnline.mkFill 0 ⟨0xa001, 0xc010, 0, 0, 0x0123, 0xff, 0x1, 0, 0x1111⟩).b1110
      = 0x0 := by
  have h := C8_mismatch_frame_populated (hexTok 0xa001) (hexTok 0xc010) (hexTok 0x0123)
    (hexTok 0xff) (hexTok 0x1) (hexTok 0x1111) [hexTok 0] true 0xa001 0xc010 0x0123 0xff
    0x1 0x1111 0 0 ⟨0, 0, 0, 0, 0, 0, 0, 0, 0⟩ (by decide) ⟨rfl, by decide⟩
    ⟨rfl, by decide⟩ ⟨rfl, by decide⟩ ⟨rfl, by decide⟩ ⟨rfl, by decide⟩ ⟨rfl, by decide⟩
    (by decide)
  simpa using h

/-! ## The scan header -/

theorem i32_of_range (x : Int) (h1 : -2 ^ 31 ≤ x) (h2 : x < 2 ^ 31) : i32 x = x := by
  unfold i32
  omega

theorem readInt_cons (t : Token) (rest : List Token) (tr : Bool) (old v : Int)
    (ht : IsIntTok t v) :
    readInt ⟨t :: rest, tr, false, false⟩ old
      = (⟨rest, tr, rest.isEmpty && !tr, false⟩, v) := by
  obtain ⟨h1, h2, h3⟩ := ht
  have h4 : ¬ v < -2147483648 := by omega
  have h5 : ¬ 2147483647 < v := by omega
  simp [readInt, IStream.extract, IStream.good, parseInt, h1, h4, h5]

theorem readInt_cons_cons (t u : Token) (rest : List Token) (tr : Bool) (old v : Int)
    (ht : IsIntTok t v) :
    readInt ⟨t :: u :: rest, tr, false, false⟩ old
      = (⟨u :: rest, tr, false, false⟩, v) := by
  rw [readInt_cons t (u :: rest) tr old v ht]
  simp

/-- C10 (counterexample): the scan headers `0 9 3` (ten values, not divisible
by 3) and `0 9 -1` (negative step) satisfy the specification's condition for
a malformed header, yet `readHeader` returns `true` and `main` takes the bin
counts 3 and -10.  The header `0 9 2`, which the specification gives as its
example, does not satisfy the condition (ten is divisible by 2); it is decoded
with bin count 5. -/
theorem C10_malformed_header_yields_bin_count :
    specMalformedHeader ⟨0, 9, 3⟩ ∧
    (GEMData.readHeader ⟨[decTok 0, decTok 9, decTok 3], true, false, false⟩ ⟨0, 0, 0⟩).1
      = true ∧
    GEMData.scanHeader ⟨[decTok 0, decTok 9, decTok 3], true, false, false⟩ ⟨0, 0, 0⟩
      = (⟨[], true, false, false⟩, ⟨0, 9, 3⟩, some 3) ∧
    specMalformedHeader ⟨0, 9, -1⟩ ∧
    GEMData.scanHeader ⟨[decTok 0, decTok 9, decTok (-1)], true, false, false⟩ ⟨0, 0, 0⟩
      = (⟨[], true, false, false⟩, ⟨0, 9, -1⟩, some (-10)) ∧
    ¬ specMalformedHeader ⟨0, 9, 2⟩ ∧
    GEMData.scanHeader ⟨[decTok 0, decTok 9, decTok 2], true, false, false⟩ ⟨0, 0, 0⟩
      = (⟨[], true, false, false⟩, ⟨0, 9, 2⟩, some 5) := by
  unfold specMalformedHeader
  decide

/-- C10 (amended): scan-header decoding never fails with a malformed-header
error.  For every header of three well-formed `int` tokens `minTh`, `maxTh`,
`stepSize` with `stepSize < 0` or `maxTh - minTh + 1` not divisible by
`stepSize`, where `stepSize ≠ 0` and `maxTh - minTh + 1` is in the range of
`int`, `readHeader` returns `true` with the three values stored and `main`
takes as bin count the quotient `(maxTh - minTh + 1) / stepSize` truncated
toward zero. -/
theorem C10_scanHeader_never_rejects (t1 t2 t3 : Token) (rest : List Token) (tr : Bool)
    (a b c : Int) (ah : AppHeader)
    (h1 : IsIntTok t1 a) (h2 : IsIntTok t2 b) (h3 : IsIntTok t3 c)
    (_hbad : specMalformedHeader ⟨a, b, c⟩) (hc : c ≠ 0)
    (hlo : -2 ^ 31 ≤ b - a) (hhi : b - a + 1 < 2 ^ 31) :
    GEMData.readHeader ⟨t1 :: t2 :: t3 :: rest, tr, false, false⟩ ah
      = (true, ⟨rest, tr, rest.isEmpty && !tr, false⟩, ⟨a, b, c⟩) ∧
    GEMData.scanHeader ⟨t1 :: t2 :: t3 :: rest, tr, false, false⟩ ah
      = (⟨rest, tr, rest.isEmpty && !tr, false⟩, ⟨a, b, c⟩,
          some (Int.tdiv (b - a + 1) c)) := by
  have hr : GEMData.readHeader ⟨t1 :: t2 :: t3 :: rest, tr, false, false⟩ ah
      = (true, ⟨rest, tr, rest.isEmpty && !tr, false⟩, ⟨a, b, c⟩) := by
    unfold GEMData.readHeader
    simp only [readInt_cons_cons _ _ _ _ _ _ h1, readInt_cons_cons _ _ _ _ _ _ h2,
      readInt_cons _ _ _ _ _ h3]
  refine ⟨hr, ?_⟩
  have e1 : i32 (b - a) = b - a := i32_of_range _ hlo (by omega)
  have e2 : i32 (b - a + 1) = b - a + 1 := i32_of_range _ (by omega) hhi
  have e3 : ¬ (b - a + 1 = -2 ^ 31 ∧ c = -1) := by omega
  unfold GEMData.scanHeader
  rw [hr]
  simp only [GEMData.nBins, e1, e2, if_neg hc, if_neg e3]

theorem C10_scanHeader_never_rejects_witness :
    GEMData.readHeader
        ⟨[decTok 0, decTok 9, decTok 3, hexTok 0xa001], true, false, false⟩ ⟨0, 0, 0⟩
      = (true, ⟨[hexTok 0xa001], true, false, false⟩, ⟨0, 9, 3⟩) ∧
    GEMData.scanHeader
        ⟨[decTok 0, decTok 9, decTok 3, hexTok 0xa001], true, false, false⟩ ⟨0, 0, 0⟩
      = (⟨[hexTok 0xa001], true, false, false⟩, ⟨0, 9, 3⟩, some 3) := by
  have h := C10_scanHeader_never_rejects (decTok 0) (decTok 9) (decTok 3) [hexTok 0xa001]
    true 0 9 3 ⟨0, 0, 0⟩ ⟨rfl, by decide, by decide⟩ ⟨rfl, by decide, by decide⟩
    ⟨rfl, by decide, by decide⟩ (by unfold specMalformedHeader; decide) (by decide)
    (by decide) (by decide)
  simpa using h

/-! ## The bin count -/

/-- C11 (counterexample): the scan header `0 2147483647 1` has a positive
step, `maxTh ≥ minTh`, and `maxTh - minTh + 1 = 2147483648` is divisible by
the step, but that number is not an `int`: the sum wraps and `main` takes the
bin count `-2147483648`, which is neither positive nor the quotient. -/
theorem C11_bin_count_wraps_at_int_max :
    (0 : Int) < 1 ∧ (0 : Int) ≤ 2147483647 ∧ (1 : Int) ∣ 2147483647 - 0 + 1 ∧
    GEMData.scanHeader
        ⟨[decTok 0, decTok 2147483647, decTok 1], true, false, false⟩ ⟨0, 0, 0⟩
      = (⟨[], true, false, false⟩, ⟨0, 2147483647, 1⟩, some (-2147483648)) ∧
    GEMData.nBins ⟨0, 2147483647, 1⟩ ≠ some ((2147483647 - 0 + 1) / 1) := by
  decide

/-- C11 (amended): for every scan header with `stepSize > 0`, `maxTh ≥ minTh`,
`maxTh - minTh + 1` divisible by `stepSize` and `maxTh - minTh + 1` in the
range of `int` (at most `2^31 - 1`), the bin count of `main` is
`(maxTh - minTh + 1) / stepSize` exactly, it is positive, and
`bin count * stepSize = maxTh - minTh + 1`; for `0 9 1` it is 10. -/
theorem C11_bin_count_exact (ah : AppHeader) (hstep : 0 < ah.stepSize)
    (hle : ah.minTh ≤ ah.maxTh) (hdvd : ah.stepSize ∣ ah.maxTh - ah.minTh + 1)
    (hfit : ah.maxTh - ah.minTh + 1 < 2 ^ 31) :
    GEMData.nBins ah = some ((ah.maxTh - ah.minTh + 1) / ah.stepSize) ∧
    0 < (ah.maxTh - ah.minTh + 1) / ah.stepSize ∧
    (ah.maxTh - ah.minTh + 1) / ah.stepSize * ah.stepSize = ah.maxTh - ah.minTh + 1 ∧
    GEMData.nBins ⟨0, 9, 1⟩ = some 10 := by
  have e1 : i32 (ah.maxTh - ah.minTh) = ah.maxTh - ah.minTh :=
    i32_of_range _ (by omega) (by omega)
  have e2 : i32 (ah.maxTh - ah.minTh + 1) = ah.maxTh - ah.minTh + 1 :=
    i32_of_range _ (by omega) hfit
  have e3 : ¬ (ah.maxTh - ah.minTh + 1 = -2 ^ 31 ∧ ah.stepSize = -1) := by omega
  have hmul : (ah.maxTh - ah.minTh + 1) / ah.stepSize * ah.stepSize
      = ah.maxTh - ah.minTh + 1 := Int.ediv_mul_cancel hdvd
  refine ⟨?_, ?_, hmul, by decide⟩
  · simp only [GEMData.nBins, e1, e2, if_neg (ne_of_gt hstep), if_neg e3]
    rw [Int.tdiv_eq_ediv (by omega) (le_of_lt hstep)]
  · by_contra hneg
    have hq : (ah.maxTh - ah.minTh + 1) / ah.stepSize ≤ 0 := by omega
    have : (ah.maxTh - ah.minTh + 1) / ah.stepSize * ah.stepSize ≤ 0 :=
      Int.mul_nonpos_of_nonpos_of_nonneg hq (le_of_lt hstep)
    omega

theorem C11_bin_count_exact_witness :
    GEMData.nBins ⟨0, 9, 1⟩ = some ((9 - 0 + 1) / 1) ∧
    (0 : Int) < (9 - 0 + 1) / 1 ∧
    ((9 : Int) - 0 + 1) / 1 * 1 = 9 - 0 + 1 ∧
    GEMData.nBins ⟨0, 9, 1⟩ = some 10 :=
  C11_bin_count_exact ⟨0, 9, 1⟩ (by decide) (by decide) (by decide) (by decide)

/-! ## Bit fields of the board trailer -/

theorem OHcrc_eq (t : Nat) : OHcrc t = t / 2 ^ 48 % 2 ^ 16 := by
  have e := mask_shift_eq 0xffff000000000000 t 48 16 (by decide)
  simp only [OHcrc, u64]
  rw [e]
  omega

theorem OHwCount_eq (t : Nat) : OHwCount t = t / 2 ^ 32 % 2 ^ 16 := by
  have e := mask_shift_eq 0x0000ffff00000000 t 32 16 (by decide)
  simp only [OHwCount, u64]
  rw [e]
  omega

theorem ChamStatus_eq (t : Nat) : ChamStatus t = t / 2 ^ 16 % 2 ^ 16 := by
  have e := mask_shift_eq 0x00000000ffff0000 t 16 16 (by decide)
  simp only [ChamStatus, u64]
  rw [e]
  omega

/-- C12: for 64-bit board trailer words `t` and `t2`, the decoder extracts
`OHcrc` as bits 63-48, `OHwCount` as bits 47-32 and `ChamStatus` as bits
31-16 of `t`, each below `2^16`; and if `t` and `t2` differ only in bits 15-0
the three fields of `t` and of `t2` are the same. -/
theorem C12_trailer_fields (t t2 : Nat) (ht : t < 2 ^ 64)
    (hsame : t / 2 ^ 16 = t2 / 2 ^ 16) :
    OHcrc t = t / 2 ^ 48 % 2 ^ 16 ∧ OHwCount t = t / 2 ^ 32 % 2 ^ 16 ∧
    ChamStatus t = t / 2 ^ 16 % 2 ^ 16 ∧
    OHcrc t < 2 ^ 16 ∧ OHwCount t < 2 ^ 16 ∧ ChamStatus t < 2 ^ 16 ∧
    OHcrc t = OHcrc t2 ∧ OHwCount t = OHwCount t2 ∧ ChamStatus t = ChamStatus t2 ∧
    t = OHcrc t * 2 ^ 48 + OHwCount t * 2 ^ 32 + ChamStatus t * 2 ^ 16 + t % 2 ^ 16 := by
  simp only [OHcrc_eq, OHwCount_eq, ChamStatus_eq]
  refine ⟨trivial, trivial, trivial, ?_, ?_, ?_, ?_, ?_, ?_, ?_⟩ <;> omega

theorem C12_trailer_fields_witness :
    OHcrc 0xabcd12340007ffff = 0xabcd12340007ffff / 2 ^ 48 % 2 ^ 16 ∧
    OHwCount 0xabcd12340007ffff = 0xabcd12340007ffff / 2 ^ 32 % 2 ^ 16 ∧
    ChamStatus 0xabcd12340007ffff = 0xabcd12340007ffff / 2 ^ 16 % 2 ^ 16 ∧
    OHcrc 0xabcd12340007ffff < 2 ^ 16 ∧ OHwCount 0xabcd12340007ffff < 2 ^ 16 ∧
    ChamStatus 0xabcd12340007ffff < 2 ^ 16 ∧
    OHcrc 0xabcd12340007ffff = OHcrc 0xabcd123400070000 ∧
    OHwCount 0xabcd12340007ffff = OHwCount 0xabcd123400070000 ∧
    ChamStatus 0xabcd12340007ffff = ChamStatus 0xabcd123400070000 ∧
    0xabcd12340007ffff = OHcrc 0xabcd12340007ffff * 2 ^ 48 +
      OHwCount 0xabcd12340007ffff * 2 ^ 32 + ChamStatus 0xabcd12340007ffff * 2 ^ 16 +
      0xabcd12340007ffff % 2 ^ 16 :=
  C12_trailer_fields 0xabcd12340007ffff 0xabcd123400070000 (by decide) (by decide)

/-! ## Termination of the chip sub-frame loop -/

namespace GEMOnline

theorem vfatIter_fills_ivfat (ievent : Int) :
    ∀ (n i : Nat) (st : MainState),
      (vfatIter ievent n i st).fills.map Fill.ivfat
        = st.fills.map Fill.ivfat ++ (List.range' i n).map Int.ofNat := by
  intro n
  induction n with
  | zero => intro i st; simp [vfatIter]
  | succ n ih =>
    intro i st
    rw [vfatIter, ih]
    simp [vfatBody, mkFill, List.range'_succ]

end GEMOnline

/-- C13: for every board header word, the chip sub-frame loop of
`gem-reading.cc` started on a state holding that header terminates, with any
bound on the number of condition checks above `sumVFAT` (in particular the
`2^32` conditions a 32-bit counter can go through), after exactly `sumVFAT`
passes, where `sumVFAT = header & 0x0fffffff ≤ 2^28 - 1`.  Each pass calls
`readEvent` once, `ivfat` takes the values `0, 1, ..., sumVFAT - 1` in this
order, and for each of them the conversion of `ivfat` to `uint64_t` and the
increment of the 32-bit `ivfat` are exact (no wrap). -/
theorem C13_vfatLoop_terminates (ievent : Int) (st : GEMOnline.MainState) (fuel : Nat)
    (hfuel : sumVFAT st.geb.header < fuel) :
    sumVFAT st.geb.header ≤ 2 ^ 28 - 1 ∧
    (∃ st2, GEMOnline.vfatLoop ievent (sumVFAT st.geb.header) fuel 0 st = some st2 ∧
      GEMOnline.vfatLoop ievent (sumVFAT st.geb.header) (2 ^ 32) 0 st = some st2 ∧
      st2 = GEMOnline.vfatIter ievent (sumVFAT st.geb.header) 0 st ∧
      st2.fills.length = st.fills.length + sumVFAT st.geb.header ∧
      st2.fills.map GEMOnline.Fill.ivfat
        = st.fills.map GEMOnline.Fill.ivfat
            ++ (List.range (sumVFAT st.geb.header)).map Int.ofNat) ∧
    (∀ i : Nat, i < sumVFAT st.geb.header →
      toU64 (i : Int) = i ∧ i32 ((i : Int) + 1) = (i : Int) + 1) := by
  have hlt := sumVFAT_lt st.geb.header
  refine ⟨by omega, ⟨_, ?_, GEMOnline.vfatLoop_sumVFAT ievent _ st, rfl,
    GEMOnline.vfatIter_fills_length ievent _ 0 st, ?_⟩, ?_⟩
  · have h := GEMOnline.vfatLoop_eq_vfatIter ievent (sumVFAT st.geb.header) (by omega)
      (sumVFAT st.geb.header) 0 fuel st (by omega) hfuel
    simpa using h
  · rw [GEMOnline.vfatIter_fills_ivfat, List.range_eq_range']
  · intro i hi
    refine ⟨toU64_natCast i (by omega), ?_⟩
    rw [i32_natCast_succ i (by omega)]
    simp

theorem C13_vfatLoop_terminates_witness :
    sumVFAT (GEBData.header ⟨0x20000003, 0⟩) ≤ 2 ^ 28 - 1 ∧
    (∃ st2, GEMOnline.vfatLoop 0 (sumVFAT (GEBData.header ⟨0x20000003, 0⟩)) 4 0
        ⟨⟨[], true, false, false⟩, ⟨0x20000003, 0⟩, ⟨0, 0, 0, 0, 0, 0, 0, 0, 0⟩, []⟩
          = some st2 ∧
      GEMOnline.vfatLoop 0 (sumVFAT (GEBData.header ⟨0x20000003, 0⟩)) (2 ^ 32) 0
        ⟨⟨[], true, false, false⟩, ⟨0x20000003, 0⟩, ⟨0, 0, 0, 0, 0, 0, 0, 0, 0⟩, []⟩
          = some st2 ∧
      st2 = GEMOnline.vfatIter 0 (sumVFAT (GEBData.header ⟨0x20000003, 0⟩)) 0
        ⟨⟨[], true, false, false⟩, ⟨0x20000003, 0⟩, ⟨0, 0, 0, 0, 0, 0, 0, 0, 0⟩, []⟩ ∧
      st2.fills.length
        = ([] : List GEMOnline.Fill).length + sumVFAT (GEBData.header ⟨0x20000003, 0⟩) ∧
      st2.fills.map GEMOnline.Fill.ivfat
        = ([] : List GEMOnline.Fill).map GEMOnline.Fill.ivfat
            ++ (List.range (sumVFAT (GEBData.header ⟨0x20000003, 0⟩))).map Int.ofNat) ∧
    (∀ i : Nat, i < sumVFAT (GEBData.header ⟨0x20000003, 0⟩) →
      toU64 (i : Int) = i ∧ i32 ((i : Int) + 1) = (i : Int) + 1) :=
  C13_vfatLoop_terminates 0
    ⟨⟨[], true, false, false⟩, ⟨0x20000003, 0⟩, ⟨0, 0, 0, 0, 0, 0, 0, 0, 0⟩, []⟩ 4
    (by decide)
